import Mathlib

/-!
Verification of the core session logic of "The Floor" game
(floor.py and duel.py), via a shallow embedding in Lean.

Conventions of the embedding:
* Python ints that hold milliseconds are modelled as `Int` (they can in
  principle go negative; the code clamps with `max 0`).  Counters and
  list indices are modelled as `Nat`.
* Pygame surfaces are not modelled; for the duel only the *number* of
  images (`numImages`) and the parallel filename list matter to the
  logic, so those are kept.  For floor tiles the pygame `rect` field is
  pure screen geometry and is omitted.
* Randomness (`random.randrange`) is modelled by passing in the stream
  of drawn values explicitly.
* Python truthiness of optional strings (`if self.winner:`) is modelled
  by `optTruthy`: `None` and `""` are falsy.
-/

namespace Floor

/-- One logical tile of the floor grid (floor.py, `FloorTile`).
The pygame `rect` field (screen geometry) is omitted. -/
structure FloorTile where
  row : Int
  col : Int
  name : String
  category : String
deriving Repr, DecidableEq

/-- floor.py `FloorScreen._are_orthogonally_adjacent`:
`abs(a.row - b.row) + abs(a.col - b.col) == 1`. -/
def are_orthogonally_adjacent (tile_a tile_b : FloorTile) : Bool :=
  let dr := (tile_a.row - tile_b.row).natAbs
  let dc := (tile_a.col - tile_b.col).natAbs
  dr + dc == 1

/-- floor.py `FloorScreen._pick_next_tile_index`.  `numTiles` is
`len(self.tiles)`; `draws` is the stream of values produced by
`random.randrange(len(self.tiles))` inside the `while True` loop
(each draw is `< numTiles`); the loop returns the first draw that
differs from `current_index`.  `none` means the stream was exhausted
with the loop still running. -/
def pick_next_tile_index (numTiles current_index : Nat) (draws : List Nat) :
    Option Nat :=
  if numTiles ≤ 1 then some 0
  else draws.find? (fun idx => idx != current_index)

/-- floor.py `FloorScreen._load_tile_data`, placeholder branch for a
missing CSV file: `rows*cols` tiles named "Tile 1", "Tile 2", ... -/
def placeholder_data (rows cols : Nat) : List (String × String) :=
  (List.range (rows * cols)).map
    (fun i => ("Tile " ++ toString (i + 1), "Placeholder"))

/-- floor.py `FloorScreen._load_tile_data`.  The CSV source is
modelled as `none` for a missing file (FileNotFoundError branch) and
`some rs` for a readable file whose rows are (name, category) pairs,
already whitespace-stripped as the Python code does.  Rows with an
empty name are skipped; then the list is cyclically repeated
(`data * repeats`, truncated to `needed`) when too short, or truncated
when long enough. -/
def load_tile_data (rows cols : Nat)
    (source : Option (List (String × String))) : List (String × String) :=
  let data := match source with
    | some rs => rs.filter (fun r => r.1 != "")
    | none => placeholder_data rows cols
  let needed := rows * cols
  if data.length < needed then
    let repeats := needed / max 1 data.length + 1
    ((List.replicate repeats data).flatten).take needed
  else
    data.take needed

/-- floor.py `FloorScreen._build_tiles`.  The double loop over
`range(rows) × range(cols)` reads `tile_data[index]` with `index`
running row-major (`index = row * cols + col`); indexing a too-short
list raises `IndexError`, modelled by `none`.  Rect geometry omitted. -/
def build_tiles (rows cols : Nat) (tile_data : List (String × String)) :
    Option (List FloorTile) :=
  if tile_data.length < rows * cols then none
  else some
    (((List.range rows).flatMap (fun r => (List.range cols).map (fun c => (r, c)))).map
      (fun rc =>
        let info := tile_data.getD (rc.1 * cols + rc.2) ("", "")
        { row := (rc.1 : Int), col := (rc.2 : Int),
          name := info.1, category := info.2 }))

/-- floor.py `FloorScreen._replace_loser_with_winner`, inner loop:
rewrite the first tile whose name is `loser` (the `break` stops after
one), giving it the winner's label and the winner tile's category. -/
def replace_first_loser (tiles : List FloorTile)
    (winner : String) (winnerCategory : String) (loser : String) :
    List FloorTile :=
  match tiles with
  | [] => []
  | t :: rest =>
    if t.name == loser then
      { t with name := winner, category := winnerCategory } :: rest
    else
      t :: replace_first_loser rest winner winnerCategory loser

/-- floor.py `FloorScreen._replace_loser_with_winner`:
`winner_tile` is the first tile named `winner` (`next(..., None)`); the
loop body only fires when `winner_tile` exists (`... and winner_tile`),
so an absent winner leaves the tiles unchanged.  The recomputation of
`highlighted_indices` afterwards does not modify the tiles and is not
modelled here. -/
def replace_loser_with_winner (tiles : List FloorTile)
    (winner loser : String) : List FloorTile :=
  match tiles.find? (fun t => t.name == winner) with
  | none => tiles
  | some winner_tile => replace_first_loser tiles winner winner_tile.category loser

end Floor

namespace Duel

/-- Python truthiness of an optional string: `None` and `""` are falsy
(duel.py tests like `if self.winner:` / `not self.winner`). -/
def optTruthy : Option String → Bool
  | none => false
  | some s => s != ""

/-- Full state of duel.py `DuelScreen` (rendering-only fields such as
fonts and the screen surface are omitted; of the pygame image list only
its length `numImages` and the parallel `image_filenames` list are kept,
which is all the logic reads). -/
structure State where
  initialTimeMs : Int
  remaining1 : Int
  remaining2 : Int
  activePlayer : Nat
  challengerName : Option String
  defenderName : Option String
  defenderCategory : Option String
  paused : Bool
  revealAnswerMode : Bool
  revealTimerMs : Int
  currentAnswer : String
  passPenaltyMode : Bool
  passPenaltyTimerMs : Int
  imageFilenames : List (Option String)
  numImages : Nat
  currentImageIndex : Nat
  winner : Option String
  loser : Option String
  requestScreenChange : Bool
  started : Bool
deriving Repr, DecidableEq

/-- duel.py `self.names_dict = {1: challenger_name, 2: defender_name}`. -/
def namesDict (s : State) (p : Nat) : Option String :=
  if p = 1 then s.challengerName
  else if p = 2 then s.defenderName
  else none

/-- Read `self.remaining_ms[p]` (dict with keys 1 and 2). -/
def getRem (s : State) (p : Nat) : Int :=
  if p = 1 then s.remaining1 else s.remaining2

/-- Write `self.remaining_ms[p] = v`. -/
def setRem (s : State) (p : Nat) (v : Int) : State :=
  if p = 1 then { s with remaining1 := v } else { s with remaining2 := v }

/-- duel.py `os.path.splitext(filename)[0]` for ordinary asset names:
everything before the last `"."`, or the whole name when it contains
no `"."`. -/
def splitext_stem (filename : String) : String :=
  let parts := filename.splitOn "."
  if parts.length ≤ 1 then filename
  else String.intercalate "." parts.dropLast

/-- duel.py `DuelScreen._parse_answer_from_filename`:
`""` for a missing/empty filename; otherwise strip the extension,
split once on `"-"` and keep the trimmed remainder (or the trimmed
whole stem when no `"-"` occurs). -/
def parse_answer_from_filename : Option String → String
  | none => ""
  | some filename =>
    if filename == "" then ""
    else
      let stem := splitext_stem filename
      let parts := stem.splitOn "-"
      if parts.length > 1 then (String.intercalate "-" parts.tail).trim
      else stem.trim

/-- duel.py `DuelScreen.__init__`.  `loadedFilenames` is the list of
image filenames successfully loaded from the category folder (empty
when the folder is missing); the starter placeholder image sits in
front of them with filename `None`, so `numImages` is one more than
the folder contributed.  `request_screen_change` is modelled as a flag
(its payload fields winner/loser/defender_category are all in the
state). -/
def init (initialTimeMs : Int)
    (challengerName defenderName defenderCategory : Option String)
    (loadedFilenames : List String) : State where
  initialTimeMs := initialTimeMs
  remaining1 := initialTimeMs
  remaining2 := initialTimeMs
  activePlayer := 1
  challengerName := challengerName
  defenderName := defenderName
  defenderCategory := defenderCategory
  paused := false
  revealAnswerMode := false
  revealTimerMs := 0
  currentAnswer := ""
  passPenaltyMode := false
  passPenaltyTimerMs := 0
  imageFilenames := none :: loadedFilenames.map some
  numImages := loadedFilenames.length + 1
  currentImageIndex := 0
  winner := none
  loser := none
  requestScreenChange := false
  started := false

/-- The three keys duel.py reacts to: P (pause), X (pass), SPACE. -/
inductive Key where
  | p
  | x
  | space
deriving Repr, DecidableEq

/-- duel.py `DuelScreen.handle_event` (KEYDOWN cases).  Note that the
SPACE reveal branch checks only `not paused and not reveal_answer_mode`
but, unlike the X branch, not `pass_penalty_mode`. -/
def handle_event (s : State) (key : Key) : State :=
  match key with
  | .p =>
    if s.started && !(optTruthy s.winner) && !s.revealAnswerMode
        && !s.passPenaltyMode then
      { s with paused := !s.paused }
    else s
  | .x =>
    if s.started && !(optTruthy s.winner) && !s.paused
        && !s.revealAnswerMode && !s.passPenaltyMode then
      { s with passPenaltyMode := true, passPenaltyTimerMs := 3000,
               currentAnswer := parse_answer_from_filename
                 (s.imageFilenames.getD s.currentImageIndex none) }
    else s
  | .space =>
    if !s.started then
      { s with started := true,
               currentImageIndex := (s.currentImageIndex + 1) % s.numImages }
    else if optTruthy s.winner then
      { s with requestScreenChange := true }
    else if !s.paused && !s.revealAnswerMode then
      { s with revealAnswerMode := true, revealTimerMs := 3000,
               currentAnswer := parse_answer_from_filename
                 (s.imageFilenames.getD s.currentImageIndex none) }
    else s

/-- duel.py `DuelScreen.update`, pass-penalty branch, first statement:
`if remaining_ms[active] > 0: remaining_ms[active] = max(0, ... - delta)`
(the penalty keeps draining the active player's clock). -/
def penalty_clock_step (s : State) (delta_ms : Int) : State :=
  if 0 < getRem s s.activePlayer then
    setRem s s.activePlayer (max 0 (getRem s s.activePlayer - delta_ms))
  else s

/-- duel.py: `pass_penalty_timer_ms = max(0, pass_penalty_timer_ms - delta)`. -/
def penalty_timer_step (s : State) (delta_ms : Int) : State :=
  { s with passPenaltyTimerMs := max 0 (s.passPenaltyTimerMs - delta_ms) }

/-- duel.py: `if pass_penalty_timer_ms == 0:` leave penalty mode,
advance to the next image (same player), clear the answer. -/
def penalty_expiry_step (s : State) : State :=
  if s.passPenaltyTimerMs = 0 then
    { s with passPenaltyMode := false,
             currentImageIndex := (s.currentImageIndex + 1) % s.numImages,
             currentAnswer := "" }
  else s

/-- duel.py `DuelScreen.update`, pass-penalty branch (the three
statements above in source order, then `return`). -/
def penalty_tick (s : State) (delta_ms : Int) : State :=
  penalty_expiry_step (penalty_timer_step (penalty_clock_step s delta_ms) delta_ms)

/-- duel.py: `reveal_timer_ms = max(0, reveal_timer_ms - delta)`
(the player clocks do not drain during reveal). -/
def reveal_timer_step (s : State) (delta_ms : Int) : State :=
  { s with revealTimerMs := max 0 (s.revealTimerMs - delta_ms) }

/-- duel.py: `if reveal_timer_ms == 0:` leave reveal mode, swap the
active player, advance to the next image, clear the answer. -/
def reveal_expiry_step (s : State) : State :=
  if s.revealTimerMs = 0 then
    { s with revealAnswerMode := false,
             activePlayer := if s.activePlayer = 1 then 2 else 1,
             currentImageIndex := (s.currentImageIndex + 1) % s.numImages,
             currentAnswer := "" }
  else s

/-- duel.py `DuelScreen.update`, answer-reveal branch (the two
statements above in source order, then `return`). -/
def reveal_tick (s : State) (delta_ms : Int) : State :=
  reveal_expiry_step (reveal_timer_step s delta_ms)

/-- duel.py: `if started and not paused and remaining_ms[active] > 0:`
drain the active player's clock, floored at 0. -/
def normal_clock_step (s : State) (delta_ms : Int) : State :=
  if s.started = true ∧ s.paused = false ∧ 0 < getRem s s.activePlayer then
    setRem s s.activePlayer (max 0 (getRem s s.activePlayer - delta_ms))
  else s

/-- duel.py: `if remaining_ms[active] == 0:` set winner/loser from
`names_dict`, append the synthesized ending image (`numImages + 1`) and
point `current_image_index` at it (`len(self.images) - 1`). -/
def timeout_check (s : State) : State :=
  if getRem s s.activePlayer = 0 then
    { s with winner := namesDict s (3 - s.activePlayer),
             loser := namesDict s s.activePlayer,
             numImages := s.numImages + 1,
             imageFilenames := s.imageFilenames ++ [none],
             currentImageIndex := s.numImages }
  else s

/-- duel.py `DuelScreen.update`, normal branch: drain then run the
timeout check. -/
def normal_tick (s : State) (delta_ms : Int) : State :=
  timeout_check (normal_clock_step s delta_ms)

/-- duel.py `DuelScreen.update(delta_ms)`: the pass-penalty and reveal
branches `return` early, so they take priority over the normal
countdown/timeout code. -/
def update (s : State) (delta_ms : Int) : State :=
  if s.passPenaltyMode then penalty_tick s delta_ms
  else if s.revealAnswerMode then reveal_tick s delta_ms
  else normal_tick s delta_ms

/-- An externally driven event: a key press or a frame tick. -/
inductive Ev where
  | key (k : Key)
  | tick (delta_ms : Int)
deriving Repr, DecidableEq

/-- One event step of the duel session. -/
def step (s : State) : Ev → State
  | .key k => handle_event s k
  | .tick d => update s d

/-- Run a sequence of events from a state. -/
def run (s : State) (evs : List Ev) : State := evs.foldl step s

end Duel

namespace Floor

/-- Helper: replacing the first loser-named tile is the identity when no
tile carries the loser's name. -/
theorem replace_first_loser_not_mem (tiles : List FloorTile)
    (w cat l : String) (h : ∀ t ∈ tiles, t.name ≠ l) :
    replace_first_loser tiles w cat l = tiles := by
  induction tiles with
  | nil => rfl
  | cons t rest ih =>
    have ht : t.name ≠ l := h t (List.mem_cons_self t rest)
    simp only [replace_first_loser, beq_iff_eq, if_neg ht]
    rw [ih (fun t' ht' => h t' (List.mem_cons_of_mem _ ht'))]

/-- Helper: `replace_first_loser` rewrites exactly the first tile whose
name matches the loser, leaving all other tiles in place. -/
theorem replace_first_loser_set (tiles : List FloorTile)
    (w cat l : String) (i : Nat) (hi : i < tiles.length)
    (hname : (tiles.get ⟨i, hi⟩).name = l)
    (hfirst : ∀ j (hj : j < tiles.length), j < i → (tiles.get ⟨j, hj⟩).name ≠ l) :
    replace_first_loser tiles w cat l =
      tiles.set i { tiles.get ⟨i, hi⟩ with name := w, category := cat } := by
  induction tiles generalizing i with
  | nil => exact absurd hi (Nat.not_lt_zero i)
  | cons t rest ih =>
    cases i with
    | zero =>
      simp only [List.get] at hname
      simp [replace_first_loser, hname]
    | succ j =>
      have ht : t.name ≠ l := by
        have := hfirst 0 (Nat.zero_lt_succ _) (Nat.zero_lt_succ _)
        simpa using this
      simp only [replace_first_loser, beq_iff_eq, if_neg ht, List.set]
      have hj : j < rest.length := Nat.lt_of_succ_lt_succ hi
      have hrec := ih j hj hname
        (fun k hk hkj => hfirst (k + 1) (Nat.succ_lt_succ hk) (Nat.succ_lt_succ hkj))
      rw [hrec]
      rfl

end Floor

/-- C8: `are_orthogonally_adjacent a b` is true iff the Manhattan
distance `|a.row − b.row| + |a.col − b.col|` is exactly 1 (orthogonal
neighbours only, no diagonals); the relation is symmetric, and no tile
is adjacent to itself. -/
theorem adjacency_manhattan_symmetric_irreflexive :
    ∀ a b : Floor.FloorTile,
      (Floor.are_orthogonally_adjacent a b = true ↔
        |a.row - b.row| + |a.col - b.col| = 1) ∧
      Floor.are_orthogonally_adjacent a b = Floor.are_orthogonally_adjacent b a ∧
      Floor.are_orthogonally_adjacent a a = false := by
  intro a b
  refine ⟨?_, ?_, ?_⟩
  · simp only [Floor.are_orthogonally_adjacent, beq_iff_eq]
    rw [Int.abs_eq_natAbs, Int.abs_eq_natAbs]
    omega
  · have hr : (a.row - b.row).natAbs = (b.row - a.row).natAbs := by omega
    have hc : (a.col - b.col).natAbs = (b.col - a.col).natAbs := by omega
    simp [Floor.are_orthogonally_adjacent, hr, hc]
  · simp [Floor.are_orthogonally_adjacent]

/-- C6: `transferOwnership` (floor.py `_replace_loser_with_winner`) is a
no-op when the winner label or the loser label is absent from the grid;
when both are present, it rewrites exactly the first loser-labelled tile,
giving it the winner's label and the winner tile's category, and leaves
every other tile unchanged. -/
theorem transfer_ownership_spec :
    ∀ (tiles : List Floor.FloorTile) (w l : String),
      ((∀ t ∈ tiles, t.name ≠ w) →
        Floor.replace_loser_with_winner tiles w l = tiles) ∧
      ((∀ t ∈ tiles, t.name ≠ l) →
        Floor.replace_loser_with_winner tiles w l = tiles) ∧
      (∀ (i : Nat) (hi : i < tiles.length) (wt : Floor.FloorTile),
        tiles.find? (fun t => t.name == w) = some wt →
        (tiles.get ⟨i, hi⟩).name = l →
        (∀ j (hj : j < tiles.length), j < i → (tiles.get ⟨j, hj⟩).name ≠ l) →
        Floor.replace_loser_with_winner tiles w l =
          tiles.set i { tiles.get ⟨i, hi⟩ with name := w, category := wt.category }) := by
  intro tiles w l
  refine ⟨?_, ?_, ?_⟩
  · intro habs
    have hfind : tiles.find? (fun t => t.name == w) = none := by
      rw [List.find?_eq_none]
      intro t ht
      simpa using habs t ht
    simp [Floor.replace_loser_with_winner, hfind]
  · intro habs
    unfold Floor.replace_loser_with_winner
    cases hfind : tiles.find? (fun t => t.name == w) with
    | none => rfl
    | some wt => exact Floor.replace_first_loser_not_mem tiles w wt.category l habs
  · intro i hi wt hfind hname hfirst
    unfold Floor.replace_loser_with_winner
    rw [hfind]
    exact Floor.replace_first_loser_set tiles w wt.category l i hi hname hfirst

/-- Witness for C6 at Scenario E's labels: "Pop Music" defeats
"Taylor Swift" in a two-tile grid; the Taylor Swift tile takes the
winner's label and category. -/
theorem transfer_ownership_spec_witness :
    Floor.replace_loser_with_winner
        [⟨0, 0, "Taylor Swift", "Music"⟩, ⟨0, 1, "Pop Music", "Pop"⟩]
        "Pop Music" "Taylor Swift" =
      [⟨0, 0, "Pop Music", "Pop"⟩, ⟨0, 1, "Pop Music", "Pop"⟩] := by
  have h := (transfer_ownership_spec
      [⟨0, 0, "Taylor Swift", "Music"⟩, ⟨0, 1, "Pop Music", "Pop"⟩]
      "Pop Music" "Taylor Swift").2.2 0 (by decide)
      ⟨0, 1, "Pop Music", "Pop"⟩ (by decide) (by decide)
      (fun j hj hj0 => absurd hj0 (Nat.not_lt_zero j))
  simpa using h

/-- C7 (amended): whenever the grid has at least two tiles, every value
returned by `_pick_next_tile_index` is a valid grid index different
from the current one, so consecutive highlighted indices differ.  (The
amendment excludes single-tile grids, where the code returns index 0
even though it equals the current highlight; see the counterexample.) -/
theorem pick_next_excludes_current :
    ∀ (numTiles current : Nat) (draws : List Nat) (idx : Nat),
      2 ≤ numTiles →
      (∀ d ∈ draws, d < numTiles) →
      Floor.pick_next_tile_index numTiles current draws = some idx →
      idx < numTiles ∧ idx ≠ current := by
  intro numTiles current draws idx h2 hdr hpick
  unfold Floor.pick_next_tile_index at hpick
  rw [if_neg (by omega)] at hpick
  refine ⟨hdr idx (List.mem_of_find?_eq_some hpick), ?_⟩
  have := List.find?_some hpick
  simpa using this

/-- Counterexample to C7 as stated: on a single-tile grid with current
index 0, `_pick_next_tile_index` returns 0, which equals the current
index, so the newly highlighted index is not always different from its
predecessor. -/
theorem pick_next_excludes_current_cex :
    ¬ (∀ (numTiles current : Nat) (draws : List Nat) (idx : Nat),
        Floor.pick_next_tile_index numTiles current draws = some idx →
        idx ≠ current) := by
  intro h
  exact h 1 0 [0] 0 rfl rfl

/-- Witness for C7's amended theorem: on a 9-tile grid currently
highlighting index 4, a draw stream starting with 4 then 7 yields 7. -/
theorem pick_next_excludes_current_witness :
    (7 : Nat) < 9 ∧ (7 : Nat) ≠ 4 := by
  exact pick_next_excludes_current 9 4 [4, 7] 7 (by decide) (by decide) (by decide)

namespace Floor

/-- Helper: length of `data * repeats` (Python list repetition). -/
theorem length_flatten_replicate {α : Type} (n : Nat) (l : List α) :
    ((List.replicate n l).flatten).length = n * l.length := by
  induction n with
  | zero => simp
  | succ n ih =>
    rw [List.replicate_succ, List.flatten_cons, List.length_append, ih,
      Nat.succ_mul, Nat.add_comm]

/-- Helper: the repeat count chosen by `_load_tile_data` is large enough. -/
theorem needed_lt_repeats_mul (needed len : Nat) (hlen : 0 < len) :
    needed < (needed / len + 1) * len := by
  calc needed = len * (needed / len) + needed % len := (Nat.div_add_mod _ _).symm
    _ < len * (needed / len) + len :=
        Nat.add_lt_add_left (Nat.mod_lt _ hlen) _
    _ = (needed / len + 1) * len := by ring

/-- Helper: indexing into `data * repeats` is cyclic indexing into
`data`. -/
theorem getElem?_flatten_replicate {α : Type} (k : Nat) (l : List α)
    (i : Nat) (hi : i < k * l.length) :
    ((List.replicate k l).flatten)[i]? = l[i % l.length]? := by
  induction k generalizing i with
  | zero => exact absurd hi (by simp)
  | succ k ih =>
    rw [List.replicate_succ, List.flatten_cons]
    by_cases hil : i < l.length
    · rw [List.getElem?_append_left hil, Nat.mod_eq_of_lt hil]
    · have hle : l.length ≤ i := Nat.le_of_not_lt hil
      have hlpos : 0 < l.length := by
        rcases Nat.eq_zero_or_pos l.length with h0 | h
        · rw [h0, Nat.mul_zero] at hi
          exact absurd hi (Nat.not_lt_zero i)
        · exact h
      rw [List.getElem?_append_right hle,
        ih (i - l.length) (by rw [Nat.succ_mul] at hi; omega),
        ← Nat.mod_eq_sub_mod hle]

/-- Helper: the row-major index list built by `_build_tiles` has
`rows * cols` entries. -/
theorem length_row_major (rows cols : Nat) :
    (((List.range rows).flatMap
      (fun r => (List.range cols).map (fun c => (r, c)))).length) = rows * cols := by
  induction rows with
  | zero => simp
  | succ n ih =>
    rw [List.range_succ, List.flatMap_append, List.length_append, ih]
    simp [Nat.succ_mul]

/-- Helper: placeholder data has exactly `rows * cols` rows. -/
theorem placeholder_data_length (rows cols : Nat) :
    (placeholder_data rows cols).length = rows * cols := by
  simp [placeholder_data]

/-- Helper: `_load_tile_data` produces exactly `rows * cols` rows as
soon as the filtered data is nonempty (or the source is missing). -/
theorem load_tile_data_length (rows cols : Nat)
    (source : Option (List (String × String)))
    (h : source = none ∨ ∃ rs, source = some rs ∧
        (rs.filter (fun r => r.1 != "")) ≠ []) :
    (load_tile_data rows cols source).length = rows * cols := by
  rcases h with h | ⟨rs, hrs, hne⟩
  · subst h
    unfold load_tile_data
    simp only [placeholder_data_length]
    rw [if_neg (Nat.lt_irrefl _), List.length_take, placeholder_data_length,
      Nat.min_self]
  · subst hrs
    unfold load_tile_data
    simp only []
    set data := rs.filter (fun r => r.1 != "") with hdata
    have hpos : 0 < data.length := List.length_pos.mpr hne
    by_cases hshort : data.length < rows * cols
    · rw [if_pos hshort, List.length_take, length_flatten_replicate]
      have : rows * cols ≤ (rows * cols / max 1 data.length + 1) * data.length := by
        rw [Nat.max_eq_right hpos]
        exact Nat.le_of_lt (needed_lt_repeats_mul _ _ hpos)
      rw [Nat.max_eq_right hpos] at *
      omega
    · rw [if_neg hshort, List.length_take]
      omega

end Floor

/-- C3 (amended): for every tile source that is missing, or present
with at least one usable (non-blank-name) row, `_load_tile_data`
returns exactly `rows × cols` entries and `_build_tiles` builds exactly
`rows × cols` tiles: a missing source is replaced by sequentially
labelled placeholder rows, a short source is repaired by cyclic
repetition (entry `i` comes from usable row `i mod count`), and excess
entries are truncated to the first `rows × cols`.  (The amendment
excludes a present source with zero usable rows: there the repair loop
repeats an empty list, zero tiles result and grid construction fails;
see the counterexample.) -/
theorem grid_construction_count :
    ∀ (rows cols : Nat) (source : Option (List (String × String))),
      (source = none ∨ ∃ rs, source = some rs ∧
          (rs.filter (fun r => r.1 != "")) ≠ []) →
      (Floor.load_tile_data rows cols source).length = rows * cols ∧
      (∃ tiles,
        Floor.build_tiles rows cols (Floor.load_tile_data rows cols source) =
          some tiles ∧ tiles.length = rows * cols) ∧
      (source = none →
        Floor.load_tile_data rows cols source = Floor.placeholder_data rows cols) ∧
      (∀ rs, source = some rs →
        (rs.filter (fun r => r.1 != "")).length < rows * cols →
        ∀ i, i < rows * cols →
          (Floor.load_tile_data rows cols source)[i]? =
            (rs.filter (fun r => r.1 != ""))[i % (rs.filter (fun r => r.1 != "")).length]?) ∧
      (∀ rs, source = some rs →
        rows * cols ≤ (rs.filter (fun r => r.1 != "")).length →
        Floor.load_tile_data rows cols source =
          (rs.filter (fun r => r.1 != "")).take (rows * cols)) := by
  intro rows cols source hsrc
  have hlen := Floor.load_tile_data_length rows cols source hsrc
  refine ⟨hlen, ?_, ?_, ?_, ?_⟩
  · unfold Floor.build_tiles
    rw [if_neg (by omega)]
    refine ⟨_, rfl, ?_⟩
    rw [List.length_map, Floor.length_row_major]
  · intro hnone
    subst hnone
    unfold Floor.load_tile_data
    simp only []
    rw [if_neg (by rw [Floor.placeholder_data_length]; exact Nat.lt_irrefl _)]
    conv_lhs => rw [← Floor.placeholder_data_length rows cols]
    exact List.take_length _
  · intro rs hrs hshort i hi
    subst hrs
    have hne : (rs.filter (fun r => r.1 != "")) ≠ [] := by
      rcases hsrc with h | ⟨rs', hrs', hne'⟩
      · exact absurd h (by simp)
      · cases Option.some.inj hrs'
        exact hne'
    have hpos : 0 < (rs.filter (fun r => r.1 != "")).length :=
      List.length_pos.mpr hne
    unfold Floor.load_tile_data
    simp only []
    rw [if_pos hshort, List.getElem?_take_of_lt hi,
      Floor.getElem?_flatten_replicate]
    rw [Nat.max_eq_right hpos]
    exact Nat.lt_trans hi (Floor.needed_lt_repeats_mul _ _ hpos)
  · intro rs hrs hlong
    subst hrs
    unfold Floor.load_tile_data
    simp only []
    rw [if_neg (Nat.not_lt.mpr hlong)]

/-- Counterexample to C3 as stated: a present source whose only row has
a blank name has zero usable rows; `_load_tile_data` then returns zero
entries instead of `3 × 3 = 9`, and `_build_tiles` fails (IndexError in
the Python source) instead of building 9 tiles. -/
theorem grid_construction_count_cex :
    (Floor.load_tile_data 3 3 (some [("", "Music")])).length = 0 ∧
    Floor.build_tiles 3 3 (Floor.load_tile_data 3 3 (some [("", "Music")])) =
      none := by
  constructor
  · rfl
  · rfl

/-- Witness for C3's amended theorem: a 2×2 grid fed from a source with
one usable row gets 4 tiles, the fourth again being the single row
(cyclic repetition); index 3 mod 1 = 0. -/
theorem grid_construction_count_witness :
    (Floor.load_tile_data 2 2 (some [("A", "x")])).length = 2 * 2 ∧
    (Floor.load_tile_data 2 2 (some [("A", "x")]))[3]? =
      ([("A", "x")].filter (fun r : String × String => r.1 != ""))[3 %
        ([("A", "x")].filter (fun r : String × String => r.1 != "")).length]? := by
  have h := grid_construction_count 2 2 (some [("A", "x")])
    (Or.inr ⟨[("A", "x")], rfl, by decide⟩)
  exact ⟨h.1, h.2.2.2.1 [("A", "x")] rfl (by decide) 3 (by decide)⟩

namespace Duel

@[simp] theorem setRem_activePlayer (s : State) (p : Nat) (v : Int) :
    (setRem s p v).activePlayer = s.activePlayer := by
  unfold setRem; split <;> rfl

@[simp] theorem setRem_challengerName (s : State) (p : Nat) (v : Int) :
    (setRem s p v).challengerName = s.challengerName := by
  unfold setRem; split <;> rfl

@[simp] theorem setRem_defenderName (s : State) (p : Nat) (v : Int) :
    (setRem s p v).defenderName = s.defenderName := by
  unfold setRem; split <;> rfl

@[simp] theorem setRem_defenderCategory (s : State) (p : Nat) (v : Int) :
    (setRem s p v).defenderCategory = s.defenderCategory := by
  unfold setRem; split <;> rfl

@[simp] theorem setRem_paused (s : State) (p : Nat) (v : Int) :
    (setRem s p v).paused = s.paused := by
  unfold setRem; split <;> rfl

@[simp] theorem setRem_started (s : State) (p : Nat) (v : Int) :
    (setRem s p v).started = s.started := by
  unfold setRem; split <;> rfl

@[simp] theorem setRem_revealAnswerMode (s : State) (p : Nat) (v : Int) :
    (setRem s p v).revealAnswerMode = s.revealAnswerMode := by
  unfold setRem; split <;> rfl

@[simp] theorem setRem_passPenaltyMode (s : State) (p : Nat) (v : Int) :
    (setRem s p v).passPenaltyMode = s.passPenaltyMode := by
  unfold setRem; split <;> rfl

@[simp] theorem setRem_passPenaltyTimerMs (s : State) (p : Nat) (v : Int) :
    (setRem s p v).passPenaltyTimerMs = s.passPenaltyTimerMs := by
  unfold setRem; split <;> rfl

@[simp] theorem setRem_revealTimerMs (s : State) (p : Nat) (v : Int) :
    (setRem s p v).revealTimerMs = s.revealTimerMs := by
  unfold setRem; split <;> rfl

@[simp] theorem setRem_winner (s : State) (p : Nat) (v : Int) :
    (setRem s p v).winner = s.winner := by
  unfold setRem; split <;> rfl

@[simp] theorem setRem_loser (s : State) (p : Nat) (v : Int) :
    (setRem s p v).loser = s.loser := by
  unfold setRem; split <;> rfl

@[simp] theorem setRem_currentImageIndex (s : State) (p : Nat) (v : Int) :
    (setRem s p v).currentImageIndex = s.currentImageIndex := by
  unfold setRem; split <;> rfl

@[simp] theorem setRem_numImages (s : State) (p : Nat) (v : Int) :
    (setRem s p v).numImages = s.numImages := by
  unfold setRem; split <;> rfl

@[simp] theorem setRem_currentAnswer (s : State) (p : Nat) (v : Int) :
    (setRem s p v).currentAnswer = s.currentAnswer := by
  unfold setRem; split <;> rfl

@[simp] theorem setRem_imageFilenames (s : State) (p : Nat) (v : Int) :
    (setRem s p v).imageFilenames = s.imageFilenames := by
  unfold setRem; split <;> rfl

@[simp] theorem getRem_setRem_self (s : State) (p : Nat) (v : Int) :
    getRem (setRem s p v) p = v := by
  unfold getRem setRem
  by_cases h : p = 1 <;> simp [h]

theorem getRem_setRem_ne (s : State) (p q : Nat) (v : Int)
    (hp : p = 1 ∨ p = 2) (hq : q = 1 ∨ q = 2) (hpq : p ≠ q) :
    getRem (setRem s p v) q = getRem s q := by
  rcases hp with rfl | rfl <;> rcases hq with rfl | rfl
  · exact absurd rfl hpq
  · simp [getRem, setRem]
  · simp [getRem, setRem]
  · exact absurd rfl hpq

theorem setRem_rem_nonneg (s : State) (p : Nat) (v : Int)
    (h1 : 0 ≤ s.remaining1) (h2 : 0 ≤ s.remaining2) (hv : 0 ≤ v) :
    0 ≤ (setRem s p v).remaining1 ∧ 0 ≤ (setRem s p v).remaining2 := by
  unfold setRem
  split
  · exact ⟨hv, h2⟩
  · exact ⟨h1, hv⟩

end Duel

namespace Duel

/-- Both player names are Python-truthy (present and non-empty), as
they are whenever a duel is created from real floor tiles. -/
def TruthyNames (s : State) : Prop :=
  optTruthy s.challengerName = true ∧ optTruthy s.defenderName = true

/-- Invariant of reachable duel states (given a non-negative initial
time budget): clocks are non-negative, the active player is 1 or 2,
pausing excludes the reveal and pass-penalty sub-phases, and — when
both names are truthy — winner/loser are set together, record the
non-active/active player's names, and exclude reveal/penalty. -/
def Inv (s : State) : Prop :=
  0 ≤ s.remaining1 ∧ 0 ≤ s.remaining2 ∧
  (s.activePlayer = 1 ∨ s.activePlayer = 2) ∧
  (s.paused = true → s.revealAnswerMode = false ∧ s.passPenaltyMode = false) ∧
  (TruthyNames s →
    (s.loser ≠ none → s.winner ≠ none) ∧
    (s.winner ≠ none →
      s.winner = namesDict s (3 - s.activePlayer) ∧
      s.loser = namesDict s s.activePlayer ∧
      s.revealAnswerMode = false ∧ s.passPenaltyMode = false))

theorem optTruthy_ne_none (o : Option String) (h : optTruthy o = true) :
    o ≠ none := by
  cases o with
  | none => exact absurd h (by simp [optTruthy])
  | some a => exact fun hc => Option.noConfusion hc

theorem namesDict_truthy (s : State) (hT : TruthyNames s)
    (hA : s.activePlayer = 1 ∨ s.activePlayer = 2) :
    optTruthy (namesDict s (3 - s.activePlayer)) = true ∧
    optTruthy (namesDict s s.activePlayer) = true := by
  rcases hA with h | h
  · rw [h]
    exact ⟨by simpa [namesDict] using hT.2, by simpa [namesDict] using hT.1⟩
  · rw [h]
    exact ⟨by simpa [namesDict] using hT.1, by simpa [namesDict] using hT.2⟩

end Duel


namespace Duel

theorem penalty_clock_step_fields (s : State) (d : Int) :
    (penalty_clock_step s d).activePlayer = s.activePlayer ∧
    (penalty_clock_step s d).paused = s.paused ∧
    (penalty_clock_step s d).revealAnswerMode = s.revealAnswerMode ∧
    (penalty_clock_step s d).passPenaltyMode = s.passPenaltyMode ∧
    (penalty_clock_step s d).passPenaltyTimerMs = s.passPenaltyTimerMs ∧
    (penalty_clock_step s d).revealTimerMs = s.revealTimerMs ∧
    (penalty_clock_step s d).started = s.started ∧
    (penalty_clock_step s d).winner = s.winner ∧
    (penalty_clock_step s d).loser = s.loser ∧
    (penalty_clock_step s d).challengerName = s.challengerName ∧
    (penalty_clock_step s d).defenderName = s.defenderName ∧
    (penalty_clock_step s d).numImages = s.numImages ∧
    (penalty_clock_step s d).currentImageIndex = s.currentImageIndex ∧
    (penalty_clock_step s d).currentAnswer = s.currentAnswer := by
  unfold penalty_clock_step
  split <;> simp

theorem penalty_clock_step_rem_nonneg (s : State) (d : Int)
    (h1 : 0 ≤ s.remaining1) (h2 : 0 ≤ s.remaining2) :
    0 ≤ (penalty_clock_step s d).remaining1 ∧
    0 ≤ (penalty_clock_step s d).remaining2 := by
  unfold penalty_clock_step
  split
  · exact setRem_rem_nonneg s _ _ h1 h2 (le_max_left 0 _)
  · exact ⟨h1, h2⟩

theorem penalty_expiry_step_fields (s : State) :
    (penalty_expiry_step s).activePlayer = s.activePlayer ∧
    (penalty_expiry_step s).paused = s.paused ∧
    (penalty_expiry_step s).revealAnswerMode = s.revealAnswerMode ∧
    (penalty_expiry_step s).started = s.started ∧
    (penalty_expiry_step s).winner = s.winner ∧
    (penalty_expiry_step s).loser = s.loser ∧
    (penalty_expiry_step s).challengerName = s.challengerName ∧
    (penalty_expiry_step s).defenderName = s.defenderName ∧
    (penalty_expiry_step s).numImages = s.numImages ∧
    (penalty_expiry_step s).remaining1 = s.remaining1 ∧
    (penalty_expiry_step s).remaining2 = s.remaining2 := by
  unfold penalty_expiry_step
  split <;> simp

theorem penalty_tick_fields (s : State) (d : Int) :
    (penalty_tick s d).activePlayer = s.activePlayer ∧
    (penalty_tick s d).paused = s.paused ∧
    (penalty_tick s d).revealAnswerMode = s.revealAnswerMode ∧
    (penalty_tick s d).started = s.started ∧
    (penalty_tick s d).winner = s.winner ∧
    (penalty_tick s d).loser = s.loser ∧
    (penalty_tick s d).challengerName = s.challengerName ∧
    (penalty_tick s d).defenderName = s.defenderName ∧
    (penalty_tick s d).numImages = s.numImages := by
  unfold penalty_tick
  obtain ⟨cA, cP, cR, _, _, _, cS, cW, cL, cCh, cDf, cN, _, _⟩ :=
    penalty_clock_step_fields s d
  obtain ⟨eA, eP, eR, eS, eW, eL, eCh, eDf, eN, _, _⟩ :=
    penalty_expiry_step_fields (penalty_timer_step (penalty_clock_step s d) d)
  exact ⟨eA.trans cA, eP.trans cP, eR.trans cR, eS.trans cS, eW.trans cW,
    eL.trans cL, eCh.trans cCh, eDf.trans cDf, eN.trans cN⟩

theorem penalty_tick_rem_nonneg (s : State) (d : Int)
    (h1 : 0 ≤ s.remaining1) (h2 : 0 ≤ s.remaining2) :
    0 ≤ (penalty_tick s d).remaining1 ∧ 0 ≤ (penalty_tick s d).remaining2 := by
  unfold penalty_tick
  obtain ⟨c1, c2⟩ := penalty_clock_step_rem_nonneg s d h1 h2
  obtain ⟨_, _, _, _, _, _, _, _, _, er1, er2⟩ :=
    penalty_expiry_step_fields (penalty_timer_step (penalty_clock_step s d) d)
  exact ⟨er1 ▸ c1, er2 ▸ c2⟩

theorem reveal_expiry_step_fields (s : State) :
    ((reveal_expiry_step s).activePlayer = s.activePlayer ∨
      (reveal_expiry_step s).activePlayer =
        (if s.activePlayer = 1 then 2 else 1)) ∧
    (reveal_expiry_step s).paused = s.paused ∧
    (reveal_expiry_step s).passPenaltyMode = s.passPenaltyMode ∧
    (reveal_expiry_step s).started = s.started ∧
    (reveal_expiry_step s).winner = s.winner ∧
    (reveal_expiry_step s).loser = s.loser ∧
    (reveal_expiry_step s).challengerName = s.challengerName ∧
    (reveal_expiry_step s).defenderName = s.defenderName ∧
    (reveal_expiry_step s).numImages = s.numImages ∧
    (reveal_expiry_step s).remaining1 = s.remaining1 ∧
    (reveal_expiry_step s).remaining2 = s.remaining2 := by
  unfold reveal_expiry_step
  split
  · exact ⟨Or.inr rfl, rfl, rfl, rfl, rfl, rfl, rfl, rfl, rfl, rfl, rfl⟩
  · exact ⟨Or.inl rfl, rfl, rfl, rfl, rfl, rfl, rfl, rfl, rfl, rfl, rfl⟩

theorem reveal_tick_fields (s : State) (d : Int) :
    ((reveal_tick s d).activePlayer = s.activePlayer ∨
      (reveal_tick s d).activePlayer = (if s.activePlayer = 1 then 2 else 1)) ∧
    (reveal_tick s d).paused = s.paused ∧
    (reveal_tick s d).passPenaltyMode = s.passPenaltyMode ∧
    (reveal_tick s d).started = s.started ∧
    (reveal_tick s d).winner = s.winner ∧
    (reveal_tick s d).loser = s.loser ∧
    (reveal_tick s d).challengerName = s.challengerName ∧
    (reveal_tick s d).defenderName = s.defenderName ∧
    (reveal_tick s d).numImages = s.numImages ∧
    (reveal_tick s d).remaining1 = s.remaining1 ∧
    (reveal_tick s d).remaining2 = s.remaining2 := by
  unfold reveal_tick
  exact reveal_expiry_step_fields (reveal_timer_step s d)

theorem normal_clock_step_fields (s : State) (d : Int) :
    (normal_clock_step s d).activePlayer = s.activePlayer ∧
    (normal_clock_step s d).paused = s.paused ∧
    (normal_clock_step s d).revealAnswerMode = s.revealAnswerMode ∧
    (normal_clock_step s d).passPenaltyMode = s.passPenaltyMode ∧
    (normal_clock_step s d).started = s.started ∧
    (normal_clock_step s d).winner = s.winner ∧
    (normal_clock_step s d).loser = s.loser ∧
    (normal_clock_step s d).challengerName = s.challengerName ∧
    (normal_clock_step s d).defenderName = s.defenderName ∧
    (normal_clock_step s d).numImages = s.numImages ∧
    (normal_clock_step s d).currentImageIndex = s.currentImageIndex := by
  unfold normal_clock_step
  split <;> simp

theorem normal_clock_step_rem_nonneg (s : State) (d : Int)
    (h1 : 0 ≤ s.remaining1) (h2 : 0 ≤ s.remaining2) :
    0 ≤ (normal_clock_step s d).remaining1 ∧
    0 ≤ (normal_clock_step s d).remaining2 := by
  unfold normal_clock_step
  split
  · exact setRem_rem_nonneg s _ _ h1 h2 (le_max_left 0 _)
  · exact ⟨h1, h2⟩

theorem timeout_check_fields (s : State) :
    (timeout_check s).activePlayer = s.activePlayer ∧
    (timeout_check s).paused = s.paused ∧
    (timeout_check s).revealAnswerMode = s.revealAnswerMode ∧
    (timeout_check s).passPenaltyMode = s.passPenaltyMode ∧
    (timeout_check s).started = s.started ∧
    (timeout_check s).challengerName = s.challengerName ∧
    (timeout_check s).defenderName = s.defenderName ∧
    (timeout_check s).remaining1 = s.remaining1 ∧
    (timeout_check s).remaining2 = s.remaining2 := by
  unfold timeout_check
  split <;> exact ⟨rfl, rfl, rfl, rfl, rfl, rfl, rfl, rfl, rfl⟩

theorem namesDict_eq_of (s t : State)
    (hch : t.challengerName = s.challengerName)
    (hdf : t.defenderName = s.defenderName) (p : Nat) :
    namesDict t p = namesDict s p := by
  unfold namesDict
  rw [hch, hdf]

end Duel

namespace Duel

theorem winner_truthy (s : State) (h : Inv s) (hT : TruthyNames s)
    (hw : s.winner ≠ none) : optTruthy s.winner = true := by
  obtain ⟨_, _, hA, _, hW⟩ := h
  obtain ⟨hweq, _, _, _⟩ := (hW hT).2 hw
  rw [hweq]
  exact (namesDict_truthy s hT hA).1

theorem winner_loser_none_of_not_truthy (s : State) (h : Inv s)
    (hT : TruthyNames s) (hwin : optTruthy s.winner = false) :
    s.winner = none ∧ s.loser = none := by
  have hwn : s.winner = none := by
    by_cases hw : s.winner = none
    · exact hw
    · have ht := winner_truthy s h hT hw
      rw [hwin] at ht
      exact Bool.noConfusion ht
  obtain ⟨_, _, _, _, hW⟩ := h
  refine ⟨hwn, ?_⟩
  by_cases hl : s.loser = none
  · exact hl
  · exact absurd hwn ((hW hT).1 hl)

theorem no_winner_in_subphase (s : State) (h : Inv s) (hT : TruthyNames s)
    (hsub : s.revealAnswerMode = true ∨ s.passPenaltyMode = true) :
    s.winner = none ∧ s.loser = none := by
  obtain ⟨_, _, _, _, hW⟩ := h
  have hwn : s.winner = none := by
    by_cases hw : s.winner = none
    · exact hw
    · obtain ⟨_, _, hrv, hpn⟩ := (hW hT).2 hw
      rcases hsub with hs | hs
      · rw [hrv] at hs; exact Bool.noConfusion hs
      · rw [hpn] at hs; exact Bool.noConfusion hs
  refine ⟨hwn, ?_⟩
  by_cases hl : s.loser = none
  · exact hl
  · exact absurd hwn ((hW hT).1 hl)

theorem penalty_tick_inv (s : State) (d : Int) (h : Inv s)
    (hpen : s.passPenaltyMode = true) : Inv (penalty_tick s d) := by
  obtain ⟨h1, h2, hA, hP, hW⟩ := h
  obtain ⟨fA, fP, fR, fS, fW, fL, fCh, fDf, fN⟩ := penalty_tick_fields s d
  obtain ⟨fr1, fr2⟩ := penalty_tick_rem_nonneg s d h1 h2
  refine ⟨fr1, fr2, ?_, ?_, ?_⟩
  · rw [fA]; exact hA
  · intro hp
    rw [fP] at hp
    have hc := (hP hp).2
    rw [hpen] at hc
    exact Bool.noConfusion hc
  · intro hT
    have hT' : TruthyNames s := by
      unfold TruthyNames at hT ⊢
      rw [fCh, fDf] at hT
      exact hT
    obtain ⟨hwn, hln⟩ :=
      no_winner_in_subphase s ⟨h1, h2, hA, hP, hW⟩ hT' (Or.inr hpen)
    constructor
    · intro hl
      rw [fL] at hl
      exact absurd hln hl
    · intro hw
      rw [fW] at hw
      exact absurd hwn hw

theorem reveal_tick_inv (s : State) (d : Int) (h : Inv s)
    (hrev : s.revealAnswerMode = true) : Inv (reveal_tick s d) := by
  obtain ⟨h1, h2, hA, hP, hW⟩ := h
  obtain ⟨fA, fP, fPen, fS, fW, fL, fCh, fDf, fN, fr1, fr2⟩ :=
    reveal_tick_fields s d
  refine ⟨?_, ?_, ?_, ?_, ?_⟩
  · rw [fr1]; exact h1
  · rw [fr2]; exact h2
  · rcases fA with hfa | hfa
    · rw [hfa]; exact hA
    · rw [hfa]
      by_cases ha : s.activePlayer = 1
      · rw [if_pos ha]; exact Or.inr rfl
      · rw [if_neg ha]; exact Or.inl rfl
  · intro hp
    rw [fP] at hp
    have hc := (hP hp).1
    rw [hrev] at hc
    exact Bool.noConfusion hc
  · intro hT
    have hT' : TruthyNames s := by
      unfold TruthyNames at hT ⊢
      rw [fCh, fDf] at hT
      exact hT
    obtain ⟨hwn, hln⟩ :=
      no_winner_in_subphase s ⟨h1, h2, hA, hP, hW⟩ hT' (Or.inl hrev)
    constructor
    · intro hl
      rw [fL] at hl
      exact absurd hln hl
    · intro hw
      rw [fW] at hw
      exact absurd hwn hw

end Duel

namespace Duel

theorem normal_tick_inv (s : State) (d : Int) (h : Inv s)
    (hpen : s.passPenaltyMode = false) (hrev : s.revealAnswerMode = false) :
    Inv (normal_tick s d) := by
  obtain ⟨h1, h2, hA, hP, hW⟩ := h
  obtain ⟨cA, cP, cR, cPen, cS, cW, cL, cCh, cDf, cN, cI⟩ :=
    normal_clock_step_fields s d
  obtain ⟨cr1, cr2⟩ := normal_clock_step_rem_nonneg s d h1 h2
  unfold normal_tick timeout_check
  by_cases hz : getRem (normal_clock_step s d) (normal_clock_step s d).activePlayer = 0
  · rw [if_pos hz]
    refine ⟨cr1, cr2, ?_, ?_, ?_⟩
    · show (normal_clock_step s d).activePlayer = 1 ∨
        (normal_clock_step s d).activePlayer = 2
      rw [cA]; exact hA
    · intro hp
      have hp' : s.paused = true := by rw [← cP]; exact hp
      constructor
      · show (normal_clock_step s d).revealAnswerMode = false
        rw [cR]; exact hrev
      · show (normal_clock_step s d).passPenaltyMode = false
        rw [cPen]; exact hpen
    · intro hT
      have hT' : TruthyNames s := by
        constructor
        · show optTruthy s.challengerName = true
          rw [← cCh]; exact hT.1
        · show optTruthy s.defenderName = true
          rw [← cDf]; exact hT.2
      have hwne : namesDict (normal_clock_step s d)
          (3 - (normal_clock_step s d).activePlayer) ≠ none := by
        rw [cA, namesDict_eq_of s (normal_clock_step s d) cCh cDf]
        exact optTruthy_ne_none _ ((namesDict_truthy s hT' hA).1)
      constructor
      · intro _
        exact hwne
      · intro _
        refine ⟨rfl, rfl, ?_, ?_⟩
        · show (normal_clock_step s d).revealAnswerMode = false
          rw [cR]; exact hrev
        · show (normal_clock_step s d).passPenaltyMode = false
          rw [cPen]; exact hpen
  · rw [if_neg hz]
    refine ⟨cr1, cr2, ?_, ?_, ?_⟩
    · rw [cA]; exact hA
    · intro hp
      rw [cP] at hp
      rw [cR, cPen]
      exact hP hp
    · intro hT
      have hT' : TruthyNames s := by
        unfold TruthyNames at hT ⊢
        rw [cCh, cDf] at hT
        exact hT
      constructor
      · intro hl
        rw [cL] at hl
        rw [cW]
        exact (hW hT').1 hl
      · intro hw
        rw [cW] at hw
        obtain ⟨e1, e2, e3, e4⟩ := (hW hT').2 hw
        refine ⟨?_, ?_, ?_, ?_⟩
        · rw [cW, cA, namesDict_eq_of s (normal_clock_step s d) cCh cDf]
          exact e1
        · rw [cL, cA, namesDict_eq_of s (normal_clock_step s d) cCh cDf]
          exact e2
        · rw [cR]; exact hrev
        · rw [cPen]; exact hpen

end Duel

namespace Duel

theorem handle_event_p_char (s : State) :
    handle_event s .p =
      if s.started && !(optTruthy s.winner) && !s.revealAnswerMode
          && !s.passPenaltyMode
      then { s with paused := !s.paused } else s := rfl

theorem handle_event_x_char (s : State) :
    handle_event s .x =
      if s.started && !(optTruthy s.winner) && !s.paused
          && !s.revealAnswerMode && !s.passPenaltyMode
      then { s with passPenaltyMode := true, passPenaltyTimerMs := 3000,
                    currentAnswer := parse_answer_from_filename
                      (s.imageFilenames.getD s.currentImageIndex none) }
      else s := rfl

theorem handle_event_space_char (s : State) :
    handle_event s .space =
      if !s.started then
        { s with started := true,
                 currentImageIndex := (s.currentImageIndex + 1) % s.numImages }
      else if optTruthy s.winner then
        { s with requestScreenChange := true }
      else if !s.paused && !s.revealAnswerMode then
        { s with revealAnswerMode := true, revealTimerMs := 3000,
                 currentAnswer := parse_answer_from_filename
                   (s.imageFilenames.getD s.currentImageIndex none) }
      else s := rfl

theorem handle_event_inv (s : State) (k : Key) (h : Inv s) :
    Inv (handle_event s k) := by
  obtain ⟨h1, h2, hA, hP, hW⟩ := h
  cases k with
  | p =>
    rw [handle_event_p_char]
    by_cases hg : (s.started && !(optTruthy s.winner) && !s.revealAnswerMode
        && !s.passPenaltyMode) = true
    · rw [if_pos hg]
      simp only [Bool.and_eq_true, Bool.not_eq_true'] at hg
      obtain ⟨⟨⟨hstart, hwin⟩, hrv⟩, hpn⟩ := hg
      refine ⟨h1, h2, hA, ?_, ?_⟩
      · intro _
        exact ⟨hrv, hpn⟩
      · intro hT
        have hT' : TruthyNames s := hT
        exact hW hT'
    · rw [if_neg hg]
      exact ⟨h1, h2, hA, hP, hW⟩
  | x =>
    rw [handle_event_x_char]
    by_cases hg : (s.started && !(optTruthy s.winner) && !s.paused
        && !s.revealAnswerMode && !s.passPenaltyMode) = true
    · rw [if_pos hg]
      simp only [Bool.and_eq_true, Bool.not_eq_true'] at hg
      obtain ⟨⟨⟨⟨hstart, hwin⟩, hpz⟩, hrv⟩, hpn⟩ := hg
      refine ⟨h1, h2, hA, ?_, ?_⟩
      · intro hp
        have hp' : s.paused = true := hp
        rw [hpz] at hp'
        exact Bool.noConfusion hp'
      · intro hT
        have hT' : TruthyNames s := hT
        obtain ⟨hwn, hln⟩ := winner_loser_none_of_not_truthy s
          ⟨h1, h2, hA, hP, hW⟩ hT' hwin
        constructor
        · intro hl
          exact absurd hln hl
        · intro hw
          exact absurd hwn hw
    · rw [if_neg hg]
      exact ⟨h1, h2, hA, hP, hW⟩
  | space =>
    rw [handle_event_space_char]
    by_cases hs : (!s.started) = true
    · rw [if_pos hs]
      refine ⟨h1, h2, hA, ?_, ?_⟩
      · intro hp
        exact hP hp
      · intro hT
        exact hW hT
    · rw [if_neg hs]
      by_cases hw : optTruthy s.winner = true
      · rw [if_pos hw]
        exact ⟨h1, h2, hA, fun hp => hP hp, fun hT => hW hT⟩
      · rw [if_neg hw]
        by_cases hg : (!s.paused && !s.revealAnswerMode) = true
        · rw [if_pos hg]
          simp only [Bool.and_eq_true, Bool.not_eq_true'] at hg
          obtain ⟨hpz, hrv⟩ := hg
          refine ⟨h1, h2, hA, ?_, ?_⟩
          · intro hp
            have hp' : s.paused = true := hp
            rw [hpz] at hp'
            exact Bool.noConfusion hp'
          · intro hT
            have hT' : TruthyNames s := hT
            have hwfalse : optTruthy s.winner = false := by
              cases hb : optTruthy s.winner
              · rfl
              · exact absurd hb hw
            obtain ⟨hwn, hln⟩ := winner_loser_none_of_not_truthy s
              ⟨h1, h2, hA, hP, hW⟩ hT' hwfalse
            constructor
            · intro hl
              exact absurd hln hl
            · intro hw2
              exact absurd hwn hw2
        · rw [if_neg hg]
          exact ⟨h1, h2, hA, hP, hW⟩

theorem inv_step (s : State) (e : Ev) (h : Inv s) : Inv (step s e) := by
  cases e with
  | key k => exact handle_event_inv s k h
  | tick d =>
    show Inv (update s d)
    unfold update
    by_cases hpen : s.passPenaltyMode = true
    · rw [if_pos hpen]
      exact penalty_tick_inv s d h hpen
    · rw [if_neg hpen]
      by_cases hrev : s.revealAnswerMode = true
      · rw [if_pos hrev]
        exact reveal_tick_inv s d h hrev
      · rw [if_neg hrev]
        exact normal_tick_inv s d h (Bool.not_eq_true _ ▸ Bool.of_not_eq_true hpen)
          (Bool.of_not_eq_true hrev)

theorem inv_init (t : Int) (ch df cat : Option String) (fns : List String)
    (ht : 0 ≤ t) : Inv (init t ch df cat fns) := by
  refine ⟨ht, ht, Or.inl rfl, ?_, ?_⟩
  · intro hp
    exact ⟨rfl, rfl⟩
  · intro _
    constructor
    · intro hl
      exact absurd rfl hl
    · intro hw
      exact absurd rfl hw

theorem inv_run (evs : List Ev) : ∀ s : State, Inv s → Inv (run s evs) := by
  induction evs with
  | nil => exact fun _ h => h
  | cons e rest ih =>
    intro s h
    exact ih (step s e) (inv_step s e h)

end Duel

namespace Duel

theorem step_names (s : State) (e : Ev) :
    (step s e).challengerName = s.challengerName ∧
    (step s e).defenderName = s.defenderName := by
  cases e with
  | key k =>
    cases k with
    | p =>
      show (handle_event s .p).challengerName = s.challengerName ∧
        (handle_event s .p).defenderName = s.defenderName
      rw [handle_event_p_char]
      split_ifs <;> exact ⟨rfl, rfl⟩
    | x =>
      show (handle_event s .x).challengerName = s.challengerName ∧
        (handle_event s .x).defenderName = s.defenderName
      rw [handle_event_x_char]
      split_ifs <;> exact ⟨rfl, rfl⟩
    | space =>
      show (handle_event s .space).challengerName = s.challengerName ∧
        (handle_event s .space).defenderName = s.defenderName
      rw [handle_event_space_char]
      split_ifs <;> exact ⟨rfl, rfl⟩
  | tick d =>
    show (update s d).challengerName = s.challengerName ∧
      (update s d).defenderName = s.defenderName
    unfold update
    split_ifs
    · obtain ⟨_, _, _, _, _, _, fCh, fDf, _⟩ := penalty_tick_fields s d
      exact ⟨fCh, fDf⟩
    · obtain ⟨_, _, _, _, _, _, fCh, fDf, _, _, _⟩ := reveal_tick_fields s d
      exact ⟨fCh, fDf⟩
    · obtain ⟨_, _, _, _, _, _, _, cCh, cDf, _, _⟩ := normal_clock_step_fields s d
      obtain ⟨_, _, _, _, _, tCh, tDf, _, _⟩ :=
        timeout_check_fields (normal_clock_step s d)
      exact ⟨tCh.trans cCh, tDf.trans cDf⟩

theorem run_names (evs : List Ev) : ∀ s : State,
    (run s evs).challengerName = s.challengerName ∧
    (run s evs).defenderName = s.defenderName := by
  induction evs with
  | nil => exact fun _ => ⟨rfl, rfl⟩
  | cons e rest ih =>
    intro s
    obtain ⟨i1, i2⟩ := ih (step s e)
    obtain ⟨s1, s2⟩ := step_names s e
    exact ⟨i1.trans s1, i2.trans s2⟩

end Duel

namespace Duel

theorem namesDict_one (s : State) : namesDict s 1 = s.challengerName := by
  simp [namesDict]

theorem namesDict_two (s : State) : namesDict s 2 = s.defenderName := by
  simp [namesDict]

theorem namesDict_other_one (s : State) :
    namesDict s (3 - 1) = s.defenderName := namesDict_two s

theorem namesDict_other_two (s : State) :
    namesDict s (3 - 2) = s.challengerName := namesDict_one s

end Duel

/-- C2 (amended): in every duel state reachable from construction with
a non-negative initial time budget by any sequence of key events and
ticks: both players' remainingMs stay ≥ 0; Paused excludes both the
Reveal and PassPenalty sub-phases, but Reveal and PassPenalty can hold
simultaneously (SPACE pressed during a pass penalty — see the
counterexample); and, when the two player names are non-empty and
distinct, winner and loser are set only together once the duel is
Finished, are drawn from the two players' names, and differ. -/
theorem duel_state_invariants :
    ∀ (t : Int) (ch df cat : Option String) (fns : List String)
      (evs : List Duel.Ev),
      0 ≤ t →
      0 ≤ (Duel.run (Duel.init t ch df cat fns) evs).remaining1 ∧
      0 ≤ (Duel.run (Duel.init t ch df cat fns) evs).remaining2 ∧
      ((Duel.run (Duel.init t ch df cat fns) evs).paused = true →
        (Duel.run (Duel.init t ch df cat fns) evs).revealAnswerMode = false ∧
        (Duel.run (Duel.init t ch df cat fns) evs).passPenaltyMode = false) ∧
      (Duel.optTruthy ch = true → Duel.optTruthy df = true → ch ≠ df →
        ((Duel.run (Duel.init t ch df cat fns) evs).loser ≠ none →
          (Duel.run (Duel.init t ch df cat fns) evs).winner ≠ none) ∧
        ((Duel.run (Duel.init t ch df cat fns) evs).winner ≠ none →
          (((Duel.run (Duel.init t ch df cat fns) evs).winner = ch ∧
            (Duel.run (Duel.init t ch df cat fns) evs).loser = df) ∨
           ((Duel.run (Duel.init t ch df cat fns) evs).winner = df ∧
            (Duel.run (Duel.init t ch df cat fns) evs).loser = ch)) ∧
          (Duel.run (Duel.init t ch df cat fns) evs).winner ≠
            (Duel.run (Duel.init t ch df cat fns) evs).loser)) := by
  intro t ch df cat fns evs ht
  have hInv := Duel.inv_run evs (Duel.init t ch df cat fns)
    (Duel.inv_init t ch df cat fns ht)
  set r := Duel.run (Duel.init t ch df cat fns) evs with hrdef
  obtain ⟨h1, h2, hA, hP, hW⟩ := hInv
  have hch : r.challengerName = ch := (Duel.run_names evs _).1
  have hdf : r.defenderName = df := (Duel.run_names evs _).2
  refine ⟨h1, h2, hP, ?_⟩
  intro hcht hdft hne
  have hT : Duel.TruthyNames r :=
    ⟨by rw [hch]; exact hcht, by rw [hdf]; exact hdft⟩
  obtain ⟨hwl1, hwl2⟩ := hW hT
  refine ⟨hwl1, ?_⟩
  intro hw
  obtain ⟨e1, e2, _, _⟩ := hwl2 hw
  rcases hA with ha | ha
  · rw [ha] at e1 e2
    rw [Duel.namesDict_other_one] at e1
    rw [Duel.namesDict_one] at e2
    have hw2 : r.winner = df := by rw [e1, hdf]
    have hl2 : r.loser = ch := by rw [e2, hch]
    refine ⟨Or.inr ⟨hw2, hl2⟩, ?_⟩
    rw [hw2, hl2]
    exact fun hc => hne hc.symm
  · rw [ha] at e1 e2
    rw [Duel.namesDict_other_two] at e1
    rw [Duel.namesDict_two] at e2
    have hw2 : r.winner = ch := by rw [e1, hch]
    have hl2 : r.loser = df := by rw [e2, hdf]
    refine ⟨Or.inl ⟨hw2, hl2⟩, ?_⟩
    rw [hw2, hl2]
    exact hne

/-- Counterexample to C2 as stated: pressing SPACE during a pass
penalty (the SPACE guard checks `paused` and `reveal_answer_mode` but
not `pass_penalty_mode`) puts the duel into Reveal while PassPenalty is
still pending, so two of the three sub-phases hold at once. -/
theorem duel_state_invariants_cex :
    (Duel.run (Duel.init 10000 (some "Alice") (some "Bob") (some "Pop") [])
      [Duel.Ev.key Duel.Key.space, Duel.Ev.key Duel.Key.x,
       Duel.Ev.key Duel.Key.space]).passPenaltyMode = true ∧
    (Duel.run (Duel.init 10000 (some "Alice") (some "Bob") (some "Pop") [])
      [Duel.Ev.key Duel.Key.space, Duel.Ev.key Duel.Key.x,
       Duel.Ev.key Duel.Key.space]).revealAnswerMode = true := by
  constructor
  · rfl
  · rfl

/-- Witness for C2's amended theorem: a finished duel between "Alice"
and "Bob" (Alice times out) has distinct winner and loser. -/
theorem duel_state_invariants_witness :
    (Duel.run (Duel.init 10000 (some "Alice") (some "Bob") none [])
      [Duel.Ev.key Duel.Key.space, Duel.Ev.tick 10000]).winner ≠
    (Duel.run (Duel.init 10000 (some "Alice") (some "Bob") none [])
      [Duel.Ev.key Duel.Key.space, Duel.Ev.tick 10000]).loser := by
  have h := duel_state_invariants 10000 (some "Alice") (some "Bob") none []
    [Duel.Ev.key Duel.Key.space, Duel.Ev.tick 10000] (by decide)
  exact ((h.2.2.2 (by decide) (by decide) (by decide)).2 (by decide)).2

namespace Duel

theorem getRem_timeout_check (s : State) (p : Nat) :
    getRem (timeout_check s) p = getRem s p := by
  obtain ⟨_, _, _, _, _, _, _, tr1, tr2⟩ := timeout_check_fields s
  unfold getRem
  rw [tr1, tr2]

/-- In a normal tick (no pass penalty, no reveal pending), if the clock
decrement brings the active player's remaining time from positive to
zero, the timeout check fires and records winner and loser. -/
theorem normal_finish (s : State) (d : Int)
    (hpen : s.passPenaltyMode = false) (hrev : s.revealAnswerMode = false)
    (hz : getRem (update s d) s.activePlayer = 0) :
    (update s d).winner = namesDict s (3 - s.activePlayer) ∧
    (update s d).loser = namesDict s s.activePlayer := by
  have upd_eq : update s d = normal_tick s d := by
    unfold update
    rw [if_neg (by rw [hpen]; exact Bool.false_ne_true),
      if_neg (by rw [hrev]; exact Bool.false_ne_true)]
  rw [upd_eq] at hz ⊢
  unfold normal_tick at hz ⊢
  obtain ⟨cA, _, _, _, _, cW, cL, cCh, cDf, _, _⟩ := normal_clock_step_fields s d
  by_cases hcz : getRem (normal_clock_step s d)
      (normal_clock_step s d).activePlayer = 0
  · unfold timeout_check
    rw [if_pos hcz]
    constructor
    · show namesDict (normal_clock_step s d)
        (3 - (normal_clock_step s d).activePlayer) = namesDict s (3 - s.activePlayer)
      rw [cA, namesDict_eq_of s (normal_clock_step s d) cCh cDf]
    · show namesDict (normal_clock_step s d)
        ((normal_clock_step s d).activePlayer) = namesDict s s.activePlayer
      rw [cA, namesDict_eq_of s (normal_clock_step s d) cCh cDf]
  · exfalso
    rw [getRem_timeout_check, ← cA] at hz
    exact hcz hz

/-- Once the winner is recorded (and the player names are truthy), no
further event or tick changes winner or loser: key handlers are gated
on `not self.winner`, and the timeout check only ever rewrites the same
values. -/
theorem winner_stable_step (s : State) (e : Ev) (h : Inv s)
    (hT : TruthyNames s) (hw : s.winner ≠ none) :
    (step s e).winner = s.winner ∧ (step s e).loser = s.loser := by
  obtain ⟨h1, h2, hA, hP, hW⟩ := h
  obtain ⟨e1, e2, e3, e4⟩ := (hW hT).2 hw
  have hwt : optTruthy s.winner = true :=
    winner_truthy s ⟨h1, h2, hA, hP, hW⟩ hT hw
  cases e with
  | key k =>
    cases k with
    | p =>
      show (handle_event s .p).winner = s.winner ∧
        (handle_event s .p).loser = s.loser
      rw [handle_event_p_char]
      simp [hwt]
    | x =>
      show (handle_event s .x).winner = s.winner ∧
        (handle_event s .x).loser = s.loser
      rw [handle_event_x_char]
      simp [hwt]
    | space =>
      show (handle_event s .space).winner = s.winner ∧
        (handle_event s .space).loser = s.loser
      rw [handle_event_space_char]
      by_cases hs : (!s.started) = true
      · rw [if_pos hs]
        exact ⟨rfl, rfl⟩
      · rw [if_neg hs, if_pos hwt]
        exact ⟨rfl, rfl⟩
  | tick d =>
    show (update s d).winner = s.winner ∧ (update s d).loser = s.loser
    have upd_eq : update s d = normal_tick s d := by
      unfold update
      rw [if_neg (by rw [e4]; exact Bool.false_ne_true),
        if_neg (by rw [e3]; exact Bool.false_ne_true)]
    rw [upd_eq]
    unfold normal_tick
    obtain ⟨cA, _, _, _, _, cW, cL, cCh, cDf, _, _⟩ := normal_clock_step_fields s d
    by_cases hcz : getRem (normal_clock_step s d)
        (normal_clock_step s d).activePlayer = 0
    · unfold timeout_check
      rw [if_pos hcz]
      constructor
      · show namesDict (normal_clock_step s d)
          (3 - (normal_clock_step s d).activePlayer) = s.winner
        rw [cA, namesDict_eq_of s (normal_clock_step s d) cCh cDf]
        exact e1.symm
      · show namesDict (normal_clock_step s d)
          ((normal_clock_step s d).activePlayer) = s.loser
        rw [cA, namesDict_eq_of s (normal_clock_step s d) cCh cDf]
        exact e2.symm
    · unfold timeout_check
      rw [if_neg hcz]
      exact ⟨cW, cL⟩

end Duel

/-- C1 (amended): (a) in a tick with no pass penalty and no reveal
pending, whenever the clock decrement brings the active player's
remainingMs from positive to 0, that same tick sets winner to the other
player's name and loser to the active player's name (the Finished
state); (b) in any reachable duel with truthy player names, once winner
is set it — and loser — are never changed by any later event or tick,
so the Finished transition happens at most once.  (The amendment
restricts (a) to normal ticks: during a PassPenalty the clock can reach
0 without finishing — see the counterexample — and the duel then
finishes on the first normal tick after the penalty ends.) -/
theorem duel_finished_transition :
    (∀ (s : Duel.State) (d : Int),
      s.passPenaltyMode = false → s.revealAnswerMode = false →
      0 < Duel.getRem s s.activePlayer →
      Duel.getRem (Duel.update s d) s.activePlayer = 0 →
      (Duel.update s d).winner = Duel.namesDict s (3 - s.activePlayer) ∧
      (Duel.update s d).loser = Duel.namesDict s s.activePlayer) ∧
    (∀ (t : Int) (ch df cat : Option String) (fns : List String)
      (evs : List Duel.Ev) (e : Duel.Ev),
      0 ≤ t → Duel.optTruthy ch = true → Duel.optTruthy df = true →
      (Duel.run (Duel.init t ch df cat fns) evs).winner ≠ none →
      (Duel.step (Duel.run (Duel.init t ch df cat fns) evs) e).winner =
        (Duel.run (Duel.init t ch df cat fns) evs).winner ∧
      (Duel.step (Duel.run (Duel.init t ch df cat fns) evs) e).loser =
        (Duel.run (Duel.init t ch df cat fns) evs).loser) := by
  constructor
  · intro s d hpen hrev _ hz
    exact Duel.normal_finish s d hpen hrev hz
  · intro t ch df cat fns evs e ht hcht hdft hw
    have hInv := Duel.inv_run evs (Duel.init t ch df cat fns)
      (Duel.inv_init t ch df cat fns ht)
    have hT : Duel.TruthyNames (Duel.run (Duel.init t ch df cat fns) evs) :=
      ⟨by rw [(Duel.run_names evs _).1]; exact hcht,
       by rw [(Duel.run_names evs _).2]; exact hdft⟩
    exact Duel.winner_stable_step _ e hInv hT hw

/-- Counterexample to C1 as stated: start a duel with 2000 ms, enter a
pass penalty, then tick twice by 1000 ms.  The second tick's clock
decrement brings the active player's remainingMs from 1000 to 0, yet
the duel does not transition to Finished in that tick (the penalty
branch returns before the timeout check): winner is still `none`. -/
theorem duel_finished_transition_cex :
    (Duel.run (Duel.init 2000 (some "Alice") (some "Bob") none [])
      [Duel.Ev.key Duel.Key.space, Duel.Ev.key Duel.Key.x,
       Duel.Ev.tick 1000]).activePlayer = 1 ∧
    Duel.getRem (Duel.run (Duel.init 2000 (some "Alice") (some "Bob") none [])
      [Duel.Ev.key Duel.Key.space, Duel.Ev.key Duel.Key.x,
       Duel.Ev.tick 1000]) 1 = 1000 ∧
    Duel.getRem (Duel.run (Duel.init 2000 (some "Alice") (some "Bob") none [])
      [Duel.Ev.key Duel.Key.space, Duel.Ev.key Duel.Key.x,
       Duel.Ev.tick 1000, Duel.Ev.tick 1000]) 1 = 0 ∧
    (Duel.run (Duel.init 2000 (some "Alice") (some "Bob") none [])
      [Duel.Ev.key Duel.Key.space, Duel.Ev.key Duel.Key.x,
       Duel.Ev.tick 1000, Duel.Ev.tick 1000]).winner = none := by
  exact ⟨rfl, rfl, rfl, rfl⟩

/-- Witness for C1: a started duel with 1000 ms left for player 1,
ticked by 1000 ms, records winner "Bob" (the defender) and loser
"Alice" in that same tick. -/
theorem duel_finished_transition_witness :
    (Duel.update (Duel.run (Duel.init 1000 (some "Alice") (some "Bob") none [])
      [Duel.Ev.key Duel.Key.space]) 1000).winner = some "Bob" ∧
    (Duel.update (Duel.run (Duel.init 1000 (some "Alice") (some "Bob") none [])
      [Duel.Ev.key Duel.Key.space]) 1000).loser = some "Alice" := by
  have h := duel_finished_transition.1
    (Duel.run (Duel.init 1000 (some "Alice") (some "Bob") none [])
      [Duel.Ev.key Duel.Key.space]) 1000 rfl rfl (by decide) (by decide)
  obtain ⟨hw, hl⟩ := h
  constructor
  · rw [hw]; rfl
  · rw [hl]; rfl

/-- C10: constructing a duel with a 0 ms budget for both players makes
the very first tick record the defender as winner and the challenger as
loser (the duel is Finished), even though the duel was never started:
the timeout check in `update` is not gated on `started`. -/
theorem zero_budget_first_tick_finishes :
    ∀ (d : Int) (cn dn : String) (cat : Option String) (fns : List String),
      (Duel.init 0 (some cn) (some dn) cat fns).started = false ∧
      (Duel.update (Duel.init 0 (some cn) (some dn) cat fns) d).winner =
        some dn ∧
      (Duel.update (Duel.init 0 (some cn) (some dn) cat fns) d).loser =
        some cn ∧
      (Duel.update (Duel.init 0 (some cn) (some dn) cat fns) d).started =
        false := by
  intro d cn dn cat fns
  exact ⟨rfl, rfl, rfl, rfl⟩

/-- C9: every advance of the duel's current item — at duel start
(SPACE before `started`), on reveal expiry, and on pass-penalty
expiry — sets the image index to `(index + 1) % numImages`, so from the
last position the index wraps around to 0, the pre-start placeholder
image. -/
theorem item_index_wraps :
    ∀ (s : Duel.State) (d : Int),
      (s.started = false →
        (Duel.handle_event s .space).currentImageIndex =
          (s.currentImageIndex + 1) % s.numImages) ∧
      (s.passPenaltyMode = true → s.passPenaltyTimerMs ≤ d →
        (Duel.update s d).currentImageIndex =
          (s.currentImageIndex + 1) % s.numImages) ∧
      (s.passPenaltyMode = false → s.revealAnswerMode = true →
        s.revealTimerMs ≤ d →
        (Duel.update s d).currentImageIndex =
          (s.currentImageIndex + 1) % s.numImages) ∧
      (0 < s.numImages → s.currentImageIndex = s.numImages - 1 →
        (s.currentImageIndex + 1) % s.numImages = 0) := by
  intro s d
  refine ⟨?_, ?_, ?_, ?_⟩
  · intro hstart
    rw [Duel.handle_event_space_char, if_pos (by rw [hstart]; rfl)]
  · intro hpen hle
    have hupd : Duel.update s d = Duel.penalty_tick s d := by
      unfold Duel.update
      rw [if_pos hpen]
    rw [hupd]
    unfold Duel.penalty_tick
    obtain ⟨_, _, _, _, cT, _, _, _, _, _, _, cN, cI, _⟩ :=
      Duel.penalty_clock_step_fields s d
    have htimer : (Duel.penalty_timer_step
        (Duel.penalty_clock_step s d) d).passPenaltyTimerMs = 0 := by
      show max 0 ((Duel.penalty_clock_step s d).passPenaltyTimerMs - d) = 0
      rw [cT]
      exact max_eq_left (sub_nonpos.mpr hle)
    unfold Duel.penalty_expiry_step
    rw [if_pos htimer]
    show ((Duel.penalty_clock_step s d).currentImageIndex + 1) %
      (Duel.penalty_clock_step s d).numImages = _
    rw [cI, cN]
  · intro hpen hrev hle
    have hupd : Duel.update s d = Duel.reveal_tick s d := by
      unfold Duel.update
      rw [if_neg (by rw [hpen]; exact Bool.false_ne_true), if_pos hrev]
    rw [hupd]
    unfold Duel.reveal_tick
    have htimer : (Duel.reveal_timer_step s d).revealTimerMs = 0 := by
      show max 0 (s.revealTimerMs - d) = 0
      exact max_eq_left (sub_nonpos.mpr hle)
    unfold Duel.reveal_expiry_step
    rw [if_pos htimer]
    rfl
  · intro h0 hidx
    rw [hidx, Nat.sub_add_cancel h0, Nat.mod_self]

/-- Witness for C9: in a fresh duel with an empty image folder
(`numImages = 1`, index 0 pointing at the placeholder), the start
advance computes `(0 + 1) % 1`, which wraps back to the placeholder. -/
theorem item_index_wraps_witness :
    (Duel.handle_event (Duel.init 5000 (some "A") (some "B") none [])
      .space).currentImageIndex =
      ((Duel.init 5000 (some "A") (some "B") none []).currentImageIndex + 1) %
        (Duel.init 5000 (some "A") (some "B") none []).numImages ∧
    ((Duel.init 5000 (some "A") (some "B") none []).currentImageIndex + 1) %
      (Duel.init 5000 (some "A") (some "B") none []).numImages = 0 := by
  have h := item_index_wraps (Duel.init 5000 (some "A") (some "B") none []) 0
  exact ⟨h.1 rfl, h.2.2.2 (by decide) (by decide)⟩

namespace Duel

theorem other_player (a : Nat) (hA : a = 1 ∨ a = 2) :
    (3 - a = 1 ∨ 3 - a = 2) ∧ a ≠ 3 - a := by
  rcases hA with h | h <;> rw [h]
  · exact ⟨Or.inr rfl, by decide⟩
  · exact ⟨Or.inl rfl, by decide⟩

/-- A penalty tick that does not exhaust the penalty countdown: the
clock and the countdown both drop by `d`, everything else is kept. -/
theorem penalty_tick_partial (s : State) (d : Int)
    (hd : 0 < d) (hdlt : d < s.passPenaltyTimerMs)
    (hrem : s.passPenaltyTimerMs < getRem s s.activePlayer)
    (hA : s.activePlayer = 1 ∨ s.activePlayer = 2) :
    (penalty_tick s d).passPenaltyMode = s.passPenaltyMode ∧
    (penalty_tick s d).passPenaltyTimerMs = s.passPenaltyTimerMs - d ∧
    (penalty_tick s d).activePlayer = s.activePlayer ∧
    getRem (penalty_tick s d) s.activePlayer =
      getRem s s.activePlayer - d ∧
    getRem (penalty_tick s d) (3 - s.activePlayer) =
      getRem s (3 - s.activePlayer) ∧
    (penalty_tick s d).revealAnswerMode = s.revealAnswerMode ∧
    (penalty_tick s d).paused = s.paused ∧
    (penalty_tick s d).started = s.started ∧
    (penalty_tick s d).winner = s.winner ∧
    (penalty_tick s d).loser = s.loser ∧
    (penalty_tick s d).currentImageIndex = s.currentImageIndex ∧
    (penalty_tick s d).numImages = s.numImages ∧
    (penalty_tick s d).currentAnswer = s.currentAnswer := by
  have hrpos : 0 < getRem s s.activePlayer := by omega
  have hclock : penalty_clock_step s d =
      setRem s s.activePlayer (getRem s s.activePlayer - d) := by
    unfold penalty_clock_step
    rw [if_pos hrpos, max_eq_right (by omega)]
  have htimer2 : (penalty_timer_step (penalty_clock_step s d) d).passPenaltyTimerMs
      = s.passPenaltyTimerMs - d := by
    show max 0 ((penalty_clock_step s d).passPenaltyTimerMs - d) = _
    rw [hclock, setRem_passPenaltyTimerMs]
    exact max_eq_right (by omega)
  have hnoexp : ¬ ((penalty_timer_step (penalty_clock_step s d) d).passPenaltyTimerMs = 0) := by
    rw [htimer2]
    omega
  have hpt : penalty_tick s d = penalty_timer_step (penalty_clock_step s d) d := by
    unfold penalty_tick penalty_expiry_step
    rw [if_neg hnoexp]
  rw [hpt]
  obtain ⟨h3A, hne3⟩ := other_player s.activePlayer hA
  refine ⟨?_, htimer2, ?_, ?_, ?_, ?_, ?_, ?_, ?_, ?_, ?_, ?_, ?_⟩
  · show (penalty_clock_step s d).passPenaltyMode = s.passPenaltyMode
    rw [hclock, setRem_passPenaltyMode]
  · show (penalty_clock_step s d).activePlayer = s.activePlayer
    rw [hclock, setRem_activePlayer]
  · show getRem (penalty_clock_step s d) s.activePlayer = _
    rw [hclock, getRem_setRem_self]
  · show getRem (penalty_clock_step s d) (3 - s.activePlayer) = _
    rw [hclock]
    exact getRem_setRem_ne s s.activePlayer (3 - s.activePlayer) _ hA h3A
      (fun hc => hne3 hc)
  · show (penalty_clock_step s d).revealAnswerMode = s.revealAnswerMode
    rw [hclock, setRem_revealAnswerMode]
  · show (penalty_clock_step s d).paused = s.paused
    rw [hclock, setRem_paused]
  · show (penalty_clock_step s d).started = s.started
    rw [hclock, setRem_started]
  · show (penalty_clock_step s d).winner = s.winner
    rw [hclock, setRem_winner]
  · show (penalty_clock_step s d).loser = s.loser
    rw [hclock, setRem_loser]
  · show (penalty_clock_step s d).currentImageIndex = s.currentImageIndex
    rw [hclock, setRem_currentImageIndex]
  · show (penalty_clock_step s d).numImages = s.numImages
    rw [hclock, setRem_numImages]
  · show (penalty_clock_step s d).currentAnswer = s.currentAnswer
    rw [hclock, setRem_currentAnswer]

/-- A penalty tick that exhausts the penalty countdown: the clock drops
by `d`, penalty mode ends, the image advances (same player), and the
revealed answer is cleared. -/
theorem penalty_tick_expiry (s : State) (d : Int)
    (hdle : s.passPenaltyTimerMs ≤ d)
    (hdrem : d < getRem s s.activePlayer)
    (hd : 0 < d)
    (hA : s.activePlayer = 1 ∨ s.activePlayer = 2) :
    (penalty_tick s d).passPenaltyMode = false ∧
    (penalty_tick s d).activePlayer = s.activePlayer ∧
    getRem (penalty_tick s d) s.activePlayer =
      getRem s s.activePlayer - d ∧
    getRem (penalty_tick s d) (3 - s.activePlayer) =
      getRem s (3 - s.activePlayer) ∧
    (penalty_tick s d).revealAnswerMode = s.revealAnswerMode ∧
    (penalty_tick s d).paused = s.paused ∧
    (penalty_tick s d).started = s.started ∧
    (penalty_tick s d).winner = s.winner ∧
    (penalty_tick s d).loser = s.loser ∧
    (penalty_tick s d).currentImageIndex =
      (s.currentImageIndex + 1) % s.numImages ∧
    (penalty_tick s d).numImages = s.numImages ∧
    (penalty_tick s d).currentAnswer = "" := by
  have hrpos : 0 < getRem s s.activePlayer := by omega
  have hclock : penalty_clock_step s d =
      setRem s s.activePlayer (getRem s s.activePlayer - d) := by
    unfold penalty_clock_step
    rw [if_pos hrpos, max_eq_right (by omega)]
  have htimer2 : (penalty_timer_step (penalty_clock_step s d) d).passPenaltyTimerMs
      = 0 := by
    show max 0 ((penalty_clock_step s d).passPenaltyTimerMs - d) = 0
    rw [hclock, setRem_passPenaltyTimerMs]
    exact max_eq_left (by omega)
  have hpt : penalty_tick s d =
      { penalty_timer_step (penalty_clock_step s d) d with
          passPenaltyMode := false,
          currentImageIndex :=
            ((penalty_timer_step (penalty_clock_step s d) d).currentImageIndex + 1) %
              (penalty_timer_step (penalty_clock_step s d) d).numImages,
          currentAnswer := "" } := by
    unfold penalty_tick penalty_expiry_step
    rw [if_pos htimer2]
  rw [hpt]
  obtain ⟨h3A, hne3⟩ := other_player s.activePlayer hA
  refine ⟨rfl, ?_, ?_, ?_, ?_, ?_, ?_, ?_, ?_, ?_, ?_, rfl⟩
  · show (penalty_clock_step s d).activePlayer = s.activePlayer
    rw [hclock, setRem_activePlayer]
  · show getRem (penalty_clock_step s d) s.activePlayer = _
    rw [hclock, getRem_setRem_self]
  · show getRem (penalty_clock_step s d) (3 - s.activePlayer) = _
    rw [hclock]
    exact getRem_setRem_ne s s.activePlayer (3 - s.activePlayer) _ hA h3A
      (fun hc => hne3 hc)
  · show (penalty_clock_step s d).revealAnswerMode = s.revealAnswerMode
    rw [hclock, setRem_revealAnswerMode]
  · show (penalty_clock_step s d).paused = s.paused
    rw [hclock, setRem_paused]
  · show (penalty_clock_step s d).started = s.started
    rw [hclock, setRem_started]
  · show (penalty_clock_step s d).winner = s.winner
    rw [hclock, setRem_winner]
  · show (penalty_clock_step s d).loser = s.loser
    rw [hclock, setRem_loser]
  · show ((penalty_clock_step s d).currentImageIndex + 1) %
      (penalty_clock_step s d).numImages = _
    rw [hclock, setRem_currentImageIndex, setRem_numImages]
  · show (penalty_clock_step s d).numImages = s.numImages
    rw [hclock, setRem_numImages]

end Duel

namespace Duel

/-- Running a pass penalty to completion: from a penalty state whose
countdown equals the total of a list of positive tick deltas (and whose
active clock exceeds that total), the fold of `update` over the deltas
ends the penalty, keeps the same active player, drains exactly the
countdown total from their clock (the other clock untouched), advances
the image once and clears the answer. -/
theorem penalty_run (ds : List Int) : ∀ s : State,
    s.passPenaltyMode = true →
    (∀ x ∈ ds, 0 < x) →
    ds.sum = s.passPenaltyTimerMs →
    0 < s.passPenaltyTimerMs →
    s.passPenaltyTimerMs < getRem s s.activePlayer →
    (s.activePlayer = 1 ∨ s.activePlayer = 2) →
    (ds.foldl update s).passPenaltyMode = false ∧
    (ds.foldl update s).revealAnswerMode = s.revealAnswerMode ∧
    (ds.foldl update s).paused = s.paused ∧
    (ds.foldl update s).started = s.started ∧
    (ds.foldl update s).winner = s.winner ∧
    (ds.foldl update s).loser = s.loser ∧
    (ds.foldl update s).activePlayer = s.activePlayer ∧
    getRem (ds.foldl update s) s.activePlayer =
      getRem s s.activePlayer - s.passPenaltyTimerMs ∧
    getRem (ds.foldl update s) (3 - s.activePlayer) =
      getRem s (3 - s.activePlayer) ∧
    (ds.foldl update s).currentImageIndex =
      (s.currentImageIndex + 1) % s.numImages ∧
    (ds.foldl update s).numImages = s.numImages ∧
    (ds.foldl update s).currentAnswer = "" := by
  induction ds with
  | nil =>
    intro s _ _ hsum htpos _ _
    rw [List.sum_nil] at hsum
    exfalso
    omega
  | cons d rest ih =>
    intro s hpen hall hsum htpos hrem hA
    have hd : 0 < d := hall d (List.mem_cons_self d rest)
    rw [List.sum_cons] at hsum
    have hupd : update s d = penalty_tick s d := by
      unfold update
      rw [if_pos hpen]
    have hfold : (d :: rest).foldl update s =
        rest.foldl update (penalty_tick s d) := by
      rw [List.foldl_cons, hupd]
    rw [hfold]
    by_cases hrest : rest = []
    · subst hrest
      have hdeq : d = s.passPenaltyTimerMs := by simpa using hsum
      rw [List.foldl_nil]
      obtain ⟨e1, e2, e3, e4, e5, e6, e7, e8, e9, e10, e11, e12⟩ :=
        penalty_tick_expiry s d (by omega) (by omega) hd hA
      refine ⟨e1, e5, e6, e7, e8, e9, e2, ?_, e4, e10, e11, e12⟩
      rw [← hdeq]
      exact e3
    · have hrest_pos : 0 < rest.sum :=
        List.sum_pos rest (fun x hx => hall x (List.mem_cons_of_mem d hx)) hrest
      have hdlt : d < s.passPenaltyTimerMs := by omega
      obtain ⟨p1, p2, p3, p4, p5, p6, p7, p8, p9, p10, p11, p12, p13⟩ :=
        penalty_tick_partial s d hd hdlt hrem hA
      have ht := ih (penalty_tick s d)
        (by rw [p1]; exact hpen)
        (fun x hx => hall x (List.mem_cons_of_mem d hx))
        (by rw [p2]; omega)
        (by rw [p2]; omega)
        (by rw [p2, p3, p4]; omega)
        (by rw [p3]; exact hA)
      obtain ⟨i1, i2, i3, i4, i5, i6, i7, i8, i9, i10, i11, i12⟩ := ht
      rw [p3] at i7 i8 i9
      refine ⟨i1, ?_, ?_, ?_, ?_, ?_, i7, ?_, ?_, ?_, ?_, i12⟩
      · rw [i2, p6]
      · rw [i3, p7]
      · rw [i4, p8]
      · rw [i5, p9]
      · rw [i6, p10]
      · rw [i8, p4, p2]
        ring
      · rw [i9, p5]
      · rw [i10, p11, p12]
      · rw [i11, p12]

end Duel

/-- C4: pressing Pass (X) while Active — started, not paused, no
reveal or penalty pending, no winner — enters a 3000 ms PassPenalty
during which the active player's clock keeps draining; after positive
ticks totalling exactly 3000 ms the penalty has expired: the same
player is still active with remainingMs reduced by exactly 3000 ms, the
other clock untouched, the deck advanced to the next item, the revealed
answer cleared, and the phase back to Active. -/
theorem pass_penalty_drains_and_returns :
    ∀ (s : Duel.State) (ds : List Int),
      s.started = true → s.paused = false → s.revealAnswerMode = false →
      s.passPenaltyMode = false → Duel.optTruthy s.winner = false →
      (s.activePlayer = 1 ∨ s.activePlayer = 2) →
      (∀ x ∈ ds, 0 < x) → ds.sum = 3000 →
      3000 < Duel.getRem s s.activePlayer →
      (ds.foldl Duel.update (Duel.handle_event s Duel.Key.x)).passPenaltyMode
          = false ∧
      (ds.foldl Duel.update (Duel.handle_event s Duel.Key.x)).revealAnswerMode
          = false ∧
      (ds.foldl Duel.update (Duel.handle_event s Duel.Key.x)).paused = false ∧
      (ds.foldl Duel.update (Duel.handle_event s Duel.Key.x)).started = true ∧
      (ds.foldl Duel.update (Duel.handle_event s Duel.Key.x)).winner
          = s.winner ∧
      (ds.foldl Duel.update (Duel.handle_event s Duel.Key.x)).activePlayer
          = s.activePlayer ∧
      Duel.getRem (ds.foldl Duel.update (Duel.handle_event s Duel.Key.x))
          s.activePlayer = Duel.getRem s s.activePlayer - 3000 ∧
      Duel.getRem (ds.foldl Duel.update (Duel.handle_event s Duel.Key.x))
          (3 - s.activePlayer) = Duel.getRem s (3 - s.activePlayer) ∧
      (ds.foldl Duel.update (Duel.handle_event s Duel.Key.x)).currentImageIndex
          = (s.currentImageIndex + 1) % s.numImages ∧
      (ds.foldl Duel.update (Duel.handle_event s Duel.Key.x)).currentAnswer
          = "" := by
  intro s ds hstart hpaused hrev hpen hwin hA hall hsum hrem
  have hchar : Duel.handle_event s Duel.Key.x =
      { s with passPenaltyMode := true, passPenaltyTimerMs := 3000,
               currentAnswer := Duel.parse_answer_from_filename
                 (s.imageFilenames.getD s.currentImageIndex none) } := by
    rw [Duel.handle_event_x_char,
      if_pos (by rw [hstart, hwin, hpaused, hrev, hpen]; rfl)]
  rw [hchar]
  obtain ⟨i1, i2, i3, i4, i5, i6, i7, i8, i9, i10, i11, i12⟩ :=
    Duel.penalty_run ds
      { s with passPenaltyMode := true, passPenaltyTimerMs := 3000,
               currentAnswer := Duel.parse_answer_from_filename
                 (s.imageFilenames.getD s.currentImageIndex none) }
      rfl hall hsum (by norm_num) hrem hA
  exact ⟨i1, i2.trans hrev, i3.trans hpaused, i4.trans hstart, i5, i7, i8, i9,
    i10, i12⟩

/-- Witness for C4 at Scenario C's numbers: a duel started at 5000 ms,
Pass pressed, then ticks of 1000+2000 ms: the same player 1 is active,
2000 ms remain (exactly 3000 drained), and the phase is Active again. -/
theorem pass_penalty_drains_and_returns_witness :
    Duel.getRem ([1000, 2000].foldl Duel.update
      (Duel.handle_event (Duel.run (Duel.init 5000 (some "Ann") (some "Ben")
        none []) [Duel.Ev.key Duel.Key.space]) Duel.Key.x)) 1 = 2000 ∧
    ([1000, 2000].foldl Duel.update
      (Duel.handle_event (Duel.run (Duel.init 5000 (some "Ann") (some "Ben")
        none []) [Duel.Ev.key Duel.Key.space]) Duel.Key.x)).activePlayer = 1 ∧
    ([1000, 2000].foldl Duel.update
      (Duel.handle_event (Duel.run (Duel.init 5000 (some "Ann") (some "Ben")
        none []) [Duel.Ev.key Duel.Key.space]) Duel.Key.x)).passPenaltyMode
      = false := by
  have h := pass_penalty_drains_and_returns
    (Duel.run (Duel.init 5000 (some "Ann") (some "Ben") none [])
      [Duel.Ev.key Duel.Key.space]) [1000, 2000]
    rfl rfl rfl rfl rfl (Or.inl rfl) (by decide) (by decide) (by decide)
  exact ⟨h.2.2.2.2.2.2.1, h.2.2.2.2.2.1, h.1⟩

namespace Duel

/-- A reveal tick that does not exhaust the reveal countdown: only the
countdown drops; the player clocks and everything else are kept. -/
theorem reveal_tick_partial (s : State) (d : Int)
    (hdlt : d < s.revealTimerMs) :
    (reveal_tick s d).revealAnswerMode = s.revealAnswerMode ∧
    (reveal_tick s d).passPenaltyMode = s.passPenaltyMode ∧
    (reveal_tick s d).revealTimerMs = s.revealTimerMs - d ∧
    (reveal_tick s d).activePlayer = s.activePlayer ∧
    (reveal_tick s d).remaining1 = s.remaining1 ∧
    (reveal_tick s d).remaining2 = s.remaining2 ∧
    (reveal_tick s d).paused = s.paused ∧
    (reveal_tick s d).started = s.started ∧
    (reveal_tick s d).winner = s.winner ∧
    (reveal_tick s d).loser = s.loser ∧
    (reveal_tick s d).currentImageIndex = s.currentImageIndex ∧
    (reveal_tick s d).numImages = s.numImages ∧
    (reveal_tick s d).currentAnswer = s.currentAnswer := by
  have htimer : (reveal_timer_step s d).revealTimerMs = s.revealTimerMs - d := by
    show max 0 (s.revealTimerMs - d) = _
    exact max_eq_right (by omega)
  have hnoexp : ¬ ((reveal_timer_step s d).revealTimerMs = 0) := by
    rw [htimer]
    omega
  have hrt : reveal_tick s d = reveal_timer_step s d := by
    unfold reveal_tick reveal_expiry_step
    rw [if_neg hnoexp]
  rw [hrt]
  exact ⟨rfl, rfl, htimer, rfl, rfl, rfl, rfl, rfl, rfl, rfl, rfl, rfl, rfl⟩

/-- A reveal tick that exhausts the reveal countdown: reveal mode ends,
the active player swaps, the image advances, the answer is cleared, and
neither player's clock moves. -/
theorem reveal_tick_expiry (s : State) (d : Int)
    (hdle : s.revealTimerMs ≤ d) :
    (reveal_tick s d).revealAnswerMode = false ∧
    (reveal_tick s d).passPenaltyMode = s.passPenaltyMode ∧
    (reveal_tick s d).activePlayer = (if s.activePlayer = 1 then 2 else 1) ∧
    (reveal_tick s d).remaining1 = s.remaining1 ∧
    (reveal_tick s d).remaining2 = s.remaining2 ∧
    (reveal_tick s d).paused = s.paused ∧
    (reveal_tick s d).started = s.started ∧
    (reveal_tick s d).winner = s.winner ∧
    (reveal_tick s d).loser = s.loser ∧
    (reveal_tick s d).currentImageIndex =
      (s.currentImageIndex + 1) % s.numImages ∧
    (reveal_tick s d).numImages = s.numImages ∧
    (reveal_tick s d).currentAnswer = "" := by
  have htimer : (reveal_timer_step s d).revealTimerMs = 0 := by
    show max 0 (s.revealTimerMs - d) = 0
    exact max_eq_left (by omega)
  have hrt : reveal_tick s d =
      { reveal_timer_step s d with
          revealAnswerMode := false,
          activePlayer :=
            if (reveal_timer_step s d).activePlayer = 1 then 2 else 1,
          currentImageIndex :=
            ((reveal_timer_step s d).currentImageIndex + 1) %
              (reveal_timer_step s d).numImages,
          currentAnswer := "" } := by
    unfold reveal_tick reveal_expiry_step
    rw [if_pos htimer]
  rw [hrt]
  exact ⟨rfl, rfl, rfl, rfl, rfl, rfl, rfl, rfl, rfl, rfl, rfl, rfl⟩

/-- Running a reveal to completion: from a reveal state whose countdown
equals the total of a list of positive tick deltas, the fold of
`update` ends the reveal, swaps the active player, leaves both clocks
untouched, advances the image once and clears the answer. -/
theorem reveal_run (ds : List Int) : ∀ s : State,
    s.revealAnswerMode = true →
    s.passPenaltyMode = false →
    (∀ x ∈ ds, 0 < x) →
    ds.sum = s.revealTimerMs →
    0 < s.revealTimerMs →
    (ds.foldl update s).revealAnswerMode = false ∧
    (ds.foldl update s).passPenaltyMode = false ∧
    (ds.foldl update s).paused = s.paused ∧
    (ds.foldl update s).started = s.started ∧
    (ds.foldl update s).winner = s.winner ∧
    (ds.foldl update s).loser = s.loser ∧
    (ds.foldl update s).activePlayer =
      (if s.activePlayer = 1 then 2 else 1) ∧
    (ds.foldl update s).remaining1 = s.remaining1 ∧
    (ds.foldl update s).remaining2 = s.remaining2 ∧
    (ds.foldl update s).currentImageIndex =
      (s.currentImageIndex + 1) % s.numImages ∧
    (ds.foldl update s).numImages = s.numImages ∧
    (ds.foldl update s).currentAnswer = "" := by
  induction ds with
  | nil =>
    intro s _ _ _ hsum htpos
    rw [List.sum_nil] at hsum
    exfalso
    omega
  | cons d rest ih =>
    intro s hrev hpen hall hsum htpos
    have hd : 0 < d := hall d (List.mem_cons_self d rest)
    rw [List.sum_cons] at hsum
    have hupd : update s d = reveal_tick s d := by
      unfold update
      rw [if_neg (by rw [hpen]; exact Bool.false_ne_true), if_pos hrev]
    have hfold : (d :: rest).foldl update s =
        rest.foldl update (reveal_tick s d) := by
      rw [List.foldl_cons, hupd]
    rw [hfold]
    by_cases hrest : rest = []
    · subst hrest
      have hdeq : d = s.revealTimerMs := by simpa using hsum
      rw [List.foldl_nil]
      obtain ⟨e1, e2, e3, e4, e5, e6, e7, e8, e9, e10, e11, e12⟩ :=
        reveal_tick_expiry s d (by omega)
      exact ⟨e1, e2.trans hpen, e6, e7, e8, e9, e3, e4, e5, e10, e11, e12⟩
    · have hrest_pos : 0 < rest.sum :=
        List.sum_pos rest (fun x hx => hall x (List.mem_cons_of_mem d hx)) hrest
      have hdlt : d < s.revealTimerMs := by omega
      obtain ⟨p1, p2, p3, p4, p5, p6, p7, p8, p9, p10, p11, p12, p13⟩ :=
        reveal_tick_partial s d hdlt
      have ht := ih (reveal_tick s d)
        (by rw [p1]; exact hrev)
        (by rw [p2]; exact hpen)
        (fun x hx => hall x (List.mem_cons_of_mem d hx))
        (by rw [p3]; omega)
        (by rw [p3]; omega)
      obtain ⟨i1, i2, i3, i4, i5, i6, i7, i8, i9, i10, i11, i12⟩ := ht
      refine ⟨i1, i2, ?_, ?_, ?_, ?_, ?_, ?_, ?_, ?_, ?_, i12⟩
      · rw [i3, p7]
      · rw [i4, p8]
      · rw [i5, p9]
      · rw [i6, p10]
      · rw [i7, p4]
      · rw [i8, p5]
      · rw [i9, p6]
      · rw [i10, p11, p12]
      · rw [i11, p12]

end Duel

/-- C5: pressing RevealOrAdvance (SPACE) while Active — started, not
paused, no reveal or penalty pending, no winner — enters a 3000 ms
Reveal during which neither player's clock drains; after positive
ticks totalling exactly 3000 ms the reveal has expired: the active
player has swapped, both players' remainingMs are unchanged (in
particular the previously active player's), the deck advanced to the
next item, the revealed answer cleared, and the phase back to Active. -/
theorem reveal_freezes_and_swaps :
    ∀ (s : Duel.State) (ds : List Int),
      s.started = true → s.paused = false → s.revealAnswerMode = false →
      s.passPenaltyMode = false → Duel.optTruthy s.winner = false →
      (∀ x ∈ ds, 0 < x) → ds.sum = 3000 →
      (ds.foldl Duel.update (Duel.handle_event s Duel.Key.space)).revealAnswerMode
          = false ∧
      (ds.foldl Duel.update (Duel.handle_event s Duel.Key.space)).passPenaltyMode
          = false ∧
      (ds.foldl Duel.update (Duel.handle_event s Duel.Key.space)).paused
          = false ∧
      (ds.foldl Duel.update (Duel.handle_event s Duel.Key.space)).started
          = true ∧
      (ds.foldl Duel.update (Duel.handle_event s Duel.Key.space)).winner
          = s.winner ∧
      (ds.foldl Duel.update (Duel.handle_event s Duel.Key.space)).activePlayer
          = (if s.activePlayer = 1 then 2 else 1) ∧
      (ds.foldl Duel.update (Duel.handle_event s Duel.Key.space)).remaining1
          = s.remaining1 ∧
      (ds.foldl Duel.update (Duel.handle_event s Duel.Key.space)).remaining2
          = s.remaining2 ∧
      (ds.foldl Duel.update (Duel.handle_event s Duel.Key.space)).currentImageIndex
          = (s.currentImageIndex + 1) % s.numImages ∧
      (ds.foldl Duel.update (Duel.handle_event s Duel.Key.space)).currentAnswer
          = "" := by
  intro s ds hstart hpaused hrev hpen hwin hall hsum
  have hchar : Duel.handle_event s Duel.Key.space =
      { s with revealAnswerMode := true, revealTimerMs := 3000,
               currentAnswer := Duel.parse_answer_from_filename
                 (s.imageFilenames.getD s.currentImageIndex none) } := by
    rw [Duel.handle_event_space_char,
      if_neg (by rw [hstart]; exact Bool.false_ne_true),
      if_neg (by rw [hwin]; exact Bool.false_ne_true),
      if_pos (by rw [hpaused, hrev]; rfl)]
  rw [hchar]
  obtain ⟨i1, i2, i3, i4, i5, i6, i7, i8, i9, i10, i11, i12⟩ :=
    Duel.reveal_run ds
      { s with revealAnswerMode := true, revealTimerMs := 3000,
               currentAnswer := Duel.parse_answer_from_filename
                 (s.imageFilenames.getD s.currentImageIndex none) }
      rfl hpen hall hsum (by norm_num)
  exact ⟨i1, i2, i3.trans hpaused, i4.trans hstart, i5, i7, i8, i9, i10, i12⟩

/-- Witness for C5 at Scenario D's numbers: a duel started at 5000 ms,
SPACE pressed, then ticks of 1500+1500 ms: the active player swapped to
2 and player 1's clock still reads 5000 ms (frozen during reveal). -/
theorem reveal_freezes_and_swaps_witness :
    ([1500, 1500].foldl Duel.update
      (Duel.handle_event (Duel.run (Duel.init 5000 (some "Ann") (some "Ben")
        none []) [Duel.Ev.key Duel.Key.space]) Duel.Key.space)).activePlayer
      = 2 ∧
    ([1500, 1500].foldl Duel.update
      (Duel.handle_event (Duel.run (Duel.init 5000 (some "Ann") (some "Ben")
        none []) [Duel.Ev.key Duel.Key.space]) Duel.Key.space)).remaining1
      = 5000 ∧
    ([1500, 1500].foldl Duel.update
      (Duel.handle_event (Duel.run (Duel.init 5000 (some "Ann") (some "Ben")
        none []) [Duel.Ev.key Duel.Key.space]) Duel.Key.space)).revealAnswerMode
      = false := by
  have h := reveal_freezes_and_swaps
    (Duel.run (Duel.init 5000 (some "Ann") (some "Ben") none [])
      [Duel.Ev.key Duel.Key.space]) [1500, 1500]
    rfl rfl rfl rfl rfl (by decide) (by decide)
  exact ⟨h.2.2.2.2.2.1, h.2.2.2.2.2.2.1, h.1⟩
